
import Mathlib

/-!
Verification of the ING statement parser (src/ingparser.py) against its
natural-language specification.

Modelling conventions (shallow embedding):

* PDF text extraction is out of scope (spec section 1): every extractor is
  modelled as a function of the ordered list of text lines obtained from
  `page.extract_text(0).split("\n")`.  Lines therefore never contain a
  newline character, so the Python regex anchor `$` (and the lookahead
  `(?=$|\n)`) is modelled as end-of-string.
* Lines are `List Char`; Python's `\d`, `\s`, `\w` classes and
  `str.lower()` are modelled on the ASCII range (all pattern literals and
  all concrete inputs used below are ASCII except for the letter ü, which
  belongs to none of those classes on either side).
* Python `float` values produced by the code are modelled as exact
  rationals built with `Rat.divInt`; all numbers the program ever converts
  are short decimal strings, which `float` round-trips at this precision.
* Fallible Python code (a raised exception) is modelled with `Option`:
  `none` is an uncaught exception.
-/

/-- ASCII decimal digit, the model of the regex class `\d`. -/
def isDig (c : Char) : Bool := 48 ≤ c.toNat && c.toNat ≤ 57

/-- Python whitespace (`\s`, `str.strip`), ASCII part. -/
def isPyWs (c : Char) : Bool :=
  c == ' ' || c == '\t' || c == '\n' || c == '\x0d' || c == '\x0b' || c == '\x0c'

/-- Word character for the regex `\b` boundary (`\w`), ASCII part. -/
def isWordC (c : Char) : Bool :=
  isDig c || (97 ≤ c.toNat && c.toNat ≤ 122) || (65 ≤ c.toNat && c.toNat ≤ 90) || c == '_'

/-- Model of Python `str.lower()` (ASCII range). -/
def asciiLower (c : Char) : Char :=
  if 65 ≤ c.toNat && c.toNat ≤ 90 then Char.ofNat (c.toNat + 32) else c

/-- Model of Python `str.lower()` on a whole string. -/
def lowerL (l : List Char) : List Char := l.map asciiLower

/-- Does the second list start with the first one? -/
def startsWithL : List Char → List Char → Bool
  | [], _ => true
  | _ :: _, [] => false
  | a :: as, b :: bs => a == b && startsWithL as bs

/-- Model of Python substring containment (`needle in hay`). -/
def isSubL (needle : List Char) : List Char → Bool
  | [] => startsWithL needle []
  | b :: bs => startsWithL needle (b :: bs) || isSubL needle bs

/-- Split a list at the first occurrence of `c` (the occurrence is dropped). -/
def splitFirst (c : Char) : List Char → Option (List Char × List Char)
  | [] => none
  | x :: xs =>
    if x = c then some ([], xs)
    else (splitFirst c xs).map (fun p => (x :: p.1, p.2))

/-- Model of Python `str.strip()`: drop leading and trailing whitespace. -/
def pyStrip (l : List Char) : List Char :=
  ((l.dropWhile isPyWs).reverse.dropWhile isPyWs).reverse

/-- Numeric value of a digit character. -/
def dv (c : Char) : Nat := c.toNat - 48

/-- Value of a string of digit characters read in base 10. -/
def digitsVal (l : List Char) : Nat := l.foldl (fun n c => 10 * n + dv c) 0

/-- All characters are digits. -/
def allDigits (l : List Char) : Bool := l.all isDig

/-- Model of `s.replace(".", "").replace(",", ".")`, the German-locale
normalization step shared by the extractors (src/ingparser.py line 38 and
the analogous lines 84, 86, 88, 155, 157). -/
def germanNorm (l : List Char) : List Char :=
  (l.filter (fun c => c != '.')).map (fun c => if c = ',' then '.' else c)

/-- Model of Python `float(s)` on plain decimal strings (the only shape this
program ever passes to `float`): optional sign, integer digits, optional
point, fraction digits, at least one digit overall.  Other accepted Python
spellings (exponents, `inf`, `nan`, underscores, surrounding whitespace)
never occur here and are not modelled.  `none` models a `ValueError`. -/
def pyFloatCore (sign : Int) (r : List Char) : Option ℚ :=
  match splitFirst '.' r with
  | none =>
    if !r.isEmpty && allDigits r then some (Rat.divInt (sign * digitsVal r) 1) else none
  | some (ip, fp) =>
    if (!ip.isEmpty || !fp.isEmpty) && allDigits ip && allDigits fp then
      some (Rat.divInt (sign * (digitsVal ip * 10 ^ fp.length + digitsVal fp)) (10 ^ fp.length))
    else none

/-- Model of Python `float(s)` (see `pyFloatCore`). -/
def pyFloatOpt : List Char → Option ℚ
  | [] => pyFloatCore 1 []
  | c :: r =>
    if c = '-' then pyFloatCore (-1) r
    else if c = '+' then pyFloatCore 1 r
    else pyFloatCore 1 (c :: r)

/-! ## AccountStatementExtractor (`parse_ing_kontoauszug`, lines 9–44)

The two regexes of the account-statement extractor are modelled directly.

`amount_regex = (-?(\d{1,3}(\.\d{3})*|\d+),\d{2})$` is anchored at the end
of the line, so `re.search` returns the match starting at the leftmost
position from which the rest of the line belongs to the language of the
body, i.e. the longest suffix of the line in that language; `group(0)` is
that suffix.  Membership of the (star-height one, unambiguous) body
language is decided by `matchesAmount`.

`date_regex = ^(0[1-9]|[12][0-9]|3[01])[.](0[1-9]|1[012])[.](19|20)[0-9]{2}`
is anchored at the start and has fixed width 10, so `re.search` succeeds
iff the first ten characters fit the shape, and `group(0)` is then the
ten-character prefix. -/

/-- Membership decider for `(\.\d{3})*`. -/
def dotGroups : List Char → Bool
  | [] => true
  | '.' :: a :: b :: c :: r => isDig a && isDig b && isDig c && dotGroups r
  | _ => false

/-- Membership decider for `\d{1,3}(\.\d{3})*`. -/
def lead13 : List Char → Bool
  | [] => false
  | c1 :: r =>
    isDig c1 &&
      (dotGroups r ||
        match r with
        | [] => false
        | c2 :: r2 =>
          isDig c2 &&
            (dotGroups r2 ||
              match r2 with
              | [] => false
              | c3 :: r3 => isDig c3 && dotGroups r3))

/-- Membership decider for `(\d{1,3}(\.\d{3})*|\d+),\d{2}`. -/
def matchesAmountTail (l : List Char) : Bool :=
  match splitFirst ',' l with
  | some (ip, fr) =>
    (decide (fr.length = 2) && allDigits fr) && ((!ip.isEmpty && allDigits ip) || lead13 ip)
  | none => false

/-- Membership decider for the full amount pattern body
`-?(\d{1,3}(\.\d{3})*|\d+),\d{2}`. -/
def matchesAmount : List Char → Bool
  | [] => matchesAmountTail []
  | c :: r => if c = '-' then matchesAmountTail r else matchesAmountTail (c :: r)

/-- Model of `amount_regex.search(line)` + `.group(0)` (lines 21, 30, 35):
the longest suffix of the line matching the amount pattern. -/
def amountSearch : List Char → Option (List Char)
  | [] => if matchesAmount [] then some [] else none
  | c :: cs => if matchesAmount (c :: cs) then some (c :: cs) else amountSearch cs

/-- Day alternative `(0[1-9]|[12][0-9]|3[01])`. -/
def dayOk (a b : Char) : Bool :=
  (a == '0' && (isDig b && b != '0')) || ((a == '1' || a == '2') && isDig b) ||
    (a == '3' && (b == '0' || b == '1'))

/-- Month alternative `(0[1-9]|1[012])`. -/
def monthOk (a b : Char) : Bool :=
  (a == '0' && (isDig b && b != '0')) || (a == '1' && (b == '0' || b == '1' || b == '2'))

/-- Year prefix alternative `(19|20)`. -/
def yearOk (a b : Char) : Bool := (a == '1' && b == '9') || (a == '2' && b == '0')

/-- Does the line start with a match of `date_regex` (lines 22–24)? -/
def matchesDatePre : List Char → Bool
  | d1 :: d2 :: '.' :: m1 :: m2 :: '.' :: y1 :: y2 :: y3 :: y4 :: _ =>
    dayOk d1 d2 && monthOk m1 m2 && yearOk y1 y2 && isDig y3 && isDig y4
  | _ => false

/-- Model of `date_regex.search(line)` + `.group(0)` (lines 32, 34). -/
def dateSearch (l : List Char) : Option (List Char) :=
  if matchesDatePre l then some (l.take 10) else none

/-- One transaction row of the account statement. -/
structure KontoRec where
  date : List Char
  description : List Char
  amount : ℚ
deriving DecidableEq

/-- The three accumulating sequences of `parse_ing_kontoauszug`
(`results`, line 20). -/
structure KontoState where
  date : List (List Char)
  description : List (List Char)
  amount : List ℚ
deriving DecidableEq

/-- The body of the line loop (lines 30–41): if an amount is found and then
a date is found, produce the record with the stripped description slice
`line[len(date):-len(amount)]` and the `float`-converted normalized amount.
`float` cannot raise here (`pyFloatOpt` succeeds on every string the amount
regex matches, see `claim1`); `getD 0` keeps the function total. -/
def kontoLine (line : List Char) : Option KontoRec :=
  match amountSearch line with
  | none => none
  | some a =>
    match dateSearch line with
    | none => none
    | some d =>
      some ⟨d, pyStrip ((line.take (line.length - a.length)).drop d.length),
        (pyFloatOpt (germanNorm a)).getD 0⟩

/-- One loop iteration: append the three fields of the record, if any. -/
def kontoStep (st : KontoState) (line : List Char) : KontoState :=
  match kontoLine line with
  | some r => ⟨st.date ++ [r.date], st.description ++ [r.description], st.amount ++ [r.amount]⟩
  | none => st

/-- The full line scan of `parse_ing_kontoauszug` (lines 20–41). -/
def kontoScan (lines : List (List Char)) : KontoState :=
  lines.foldl kontoStep ⟨[], [], []⟩

/-! ## A small backtracking regex engine

`parse_ing_depotauszug` and `parse_ing_abrechnung` use richer patterns
(lazy quantifiers, lookarounds, word boundaries), so their regexes are
embedded as syntax trees and run by a continuation-passing backtracking
matcher with the alternative/quantifier ordering of Python `re`:
alternation is ordered, greedy quantifiers try longer first, lazy ones
shorter first, and `re.search` tries start positions left to right.

The matcher carries one capture slot (every pattern below has exactly one
capturing group, always on the mandatory path of a match).  Star iteration
is driven by fuel; every star body below consumes at least one character
(enforced by the `i < j` guard), so fuel `length + 2` never runs out. -/

inductive RX where
  | lit : List Char → RX
  | cls : (Char → Bool) → RX
  | cat : RX → RX → RX
  | alt : RX → RX → RX
  | opt : RX → RX
  | starG : RX → RX
  | starL : RX → RX
  | grp : RX → RX
  | look : RX → RX
  | nlook : RX → RX
  | behind : List (Char → Bool) → RX
  | eos : RX
  | wordb : RX

/-- Check a fixed-width list of character predicates (for lookbehind). -/
def checkPreds : List (Char → Bool) → List Char → Bool
  | [], [] => true
  | p :: ps, c :: cs => p c && checkPreds ps cs
  | _, _ => false

/-- Is the character at index `i` a word character? -/
def wordAt (s : List Char) (i : Nat) : Bool :=
  match s.drop i with
  | c :: _ => isWordC c
  | [] => false

/-- The `\b` condition at position `i`. -/
def wordBoundary (s : List Char) (i : Nat) : Bool :=
  (if i = 0 then false else wordAt s (i - 1)) != wordAt s i

/-- One structural layer of the matcher.  `iter` performs further star
iterations (it is the matcher at one less fuel).  Arguments: regex,
position, capture slot, continuation; result is `some capture` on overall
success. -/
def rxmS (s : List Char)
    (iter : RX → Nat → Option (Nat × Nat) →
      (Nat → Option (Nat × Nat) → Option (Option (Nat × Nat))) → Option (Option (Nat × Nat))) :
    RX → Nat → Option (Nat × Nat) →
      (Nat → Option (Nat × Nat) → Option (Option (Nat × Nat))) → Option (Option (Nat × Nat))
  | .lit l, i, cap, k => if startsWithL l (s.drop i) then k (i + l.length) cap else none
  | .cls p, i, cap, k =>
    match s.drop i with
    | c :: _ => if p c then k (i + 1) cap else none
    | [] => none
  | .cat a b, i, cap, k => rxmS s iter a i cap (fun j c2 => rxmS s iter b j c2 k)
  | .alt a b, i, cap, k => (rxmS s iter a i cap k).orElse (fun _ => rxmS s iter b i cap k)
  | .opt a, i, cap, k => (rxmS s iter a i cap k).orElse (fun _ => k i cap)
  | .starG a, i, cap, k =>
    (rxmS s iter a i cap (fun j c2 => if i < j then iter (.starG a) j c2 k else none)).orElse
      (fun _ => k i cap)
  | .starL a, i, cap, k =>
    (k i cap).orElse
      (fun _ => rxmS s iter a i cap (fun j c2 => if i < j then iter (.starL a) j c2 k else none))
  | .grp a, i, cap, k => rxmS s iter a i cap (fun j _ => k j (some (i, j)))
  | .look a, i, cap, k =>
    match rxmS s iter a i cap (fun _ c2 => some c2) with
    | some _ => k i cap
    | none => none
  | .nlook a, i, cap, k =>
    match rxmS s iter a i cap (fun _ c2 => some c2) with
    | some _ => none
    | none => k i cap
  | .behind ps, i, cap, k =>
    if ps.length ≤ i && checkPreds ps ((s.take i).drop (i - ps.length)) then k i cap else none
  | .eos, i, cap, k => if i = s.length then k i cap else none
  | .wordb, i, cap, k => if wordBoundary s i then k i cap else none

/-- The fueled matcher. -/
def rxmF (s : List Char) : Nat → RX → Nat → Option (Nat × Nat) →
    (Nat → Option (Nat × Nat) → Option (Option (Nat × Nat))) → Option (Option (Nat × Nat))
  | 0, _, _, _, _ => none
  | f + 1, r, i, cap, k => rxmS s (rxmF s f) r i cap k

/-- Try to match `r` starting exactly at position `i`. -/
def rxRun (r : RX) (s : List Char) (i : Nat) : Option (Option (Nat × Nat)) :=
  rxmF s (s.length + 2) r i none (fun _ c => some c)

/-- Scan start positions left to right (`re.search`). -/
def searchFrom (r : RX) (s : List Char) : Nat → Nat → Option (Option (Nat × Nat))
  | 0, _ => none
  | n + 1, i =>
    match rxRun r s i with
    | some c => some c
    | none => searchFrom r s n (i + 1)

/-- Model of `pattern.search(line)` followed by `.group(1)`.  In every
pattern below the single group lies on the mandatory path, so a successful
match always fills the capture slot; the `some []` case is unreachable. -/
def reSearchG1 (r : RX) (s : List Char) : Option (List Char) :=
  match searchFrom r s (s.length + 1) 0 with
  | some (some p) => some ((s.take p.2).drop p.1)
  | some none => some []
  | none => none

/-- Epsilon as a regex. -/
def rxEps : RX := .lit []

/-- Concatenation of a list of regexes. -/
def rxSeq (l : List RX) : RX := l.foldr RX.cat rxEps

/-- Greedy `+` (as `a a*`). -/
def rxPlus (a : RX) : RX := .cat a (.starG a)

/-- Lazy `+?` (as `a a*?`). -/
def rxPlusL (a : RX) : RX := .cat a (.starL a)

/-- The class `\d`. -/
def rxD : RX := .cls isDig

/-- The class `\s`. -/
def rxWs : RX := .cls isPyWs

/-- The metacharacter `.` (anything but a newline). -/
def rxAnyC : RX := .cls (fun c => c != '\n')

/-- A literal string. -/
def litRX (t : String) : RX := .lit t.data

/-- A fixed literal lookbehind `(?<=t)`. -/
def behindLit (t : String) : RX := .behind (t.data.map (fun c => fun x => x == c))

/-! ## DepotStatementExtractor (`parse_ing_depotauszug`, lines 46–93) -/

/-- Model of `\bDepotauszug per\s+(\d{2}\.\d{2}\.\d{4})\b` (line 61). -/
def depotDateRX : RX :=
  rxSeq [.wordb, litRX ("Depotauszug per"), rxPlus rxWs,
    .grp (rxSeq [rxD, rxD, litRX ("."), rxD, rxD, litRX ("."), rxD, rxD, rxD, rxD]), .wordb]

/-- Model of `\bStück\s+([^0-9]+?)\s+\d+(?:,\d+)?` (line 62). -/
def depotNameRX : RX :=
  rxSeq [.wordb, litRX ("Stück"), rxPlus rxWs, .grp (rxPlusL (.cls (fun c => !isDig c))),
    rxPlus rxWs, rxPlus rxD, .opt (rxSeq [litRX (","), rxPlus rxD])]

/-- Model of `ISIN \(WKN\):\s+(.*?)\s+` (line 63). -/
def depotIsinRX : RX :=
  rxSeq [litRX ("ISIN (WKN):"), rxPlus rxWs, .grp (.starL rxAnyC), rxPlus rxWs]

/-- Model of `\b(\d+(?:,\d+)?)\s+Stück\b` (line 64). -/
def depotAmountRX : RX :=
  rxSeq [.wordb, .grp (rxSeq [rxPlus rxD, .opt (rxSeq [litRX (","), rxPlus rxD])]),
    rxPlus rxWs, litRX ("Stück"), .wordb]

/-- Model of `(\d+(?:,\d+)?)\s+EUR(?!$)` (line 65). -/
def depotPriceRX : RX :=
  rxSeq [.grp (rxSeq [rxPlus rxD, .opt (rxSeq [litRX (","), rxPlus rxD])]),
    rxPlus rxWs, litRX ("EUR"), .nlook .eos]

/-- Model of `EUR\s+(.*?)\s+EUR` (line 66). -/
def depotMarketRX : RX :=
  rxSeq [litRX ("EUR"), rxPlus rxWs, .grp (.starL rxAnyC), rxPlus rxWs, litRX ("EUR")]

/-- Model of `date_regex.search(line)` + `.group(1)`. -/
def depotDateG1 (l : List Char) : Option (List Char) := reSearchG1 depotDateRX l

/-- Model of `name_regex.search(line)` + `.group(1)`. -/
def depotNameG1 (l : List Char) : Option (List Char) := reSearchG1 depotNameRX l

/-- Model of `isin_regex.search(line)` + `.group(1)`. -/
def depotIsinG1 (l : List Char) : Option (List Char) := reSearchG1 depotIsinRX l

/-- Model of `amount_regex.search(line)` + `.group(1)`. -/
def depotAmountG1 (l : List Char) : Option (List Char) := reSearchG1 depotAmountRX l

/-- Model of `price_regex.search(line)` + `.group(1)`. -/
def depotPriceG1 (l : List Char) : Option (List Char) := reSearchG1 depotPriceRX l

/-- Model of `market_regex.search(line)` + `.group(1)`. -/
def depotMarketG1 (l : List Char) : Option (List Char) := reSearchG1 depotMarketRX l

/-- The six independently accumulating sequences of `parse_ing_depotauszug`
(`results`, line 58). -/
structure DepotState where
  date : List (List Char)
  name : List (List Char)
  isin : List (List Char)
  amount : List ℚ
  price : List ℚ
  market : List ℚ
deriving DecidableEq

/-- Line 77–78: append the date if matched. -/
def depotStepDate (st : DepotState) (line : List Char) : DepotState :=
  match depotDateG1 line with
  | some g => { st with date := st.date ++ [g] }
  | none => st

/-- Lines 79–80: append the name if matched. -/
def depotStepName (st : DepotState) (line : List Char) : DepotState :=
  match depotNameG1 line with
  | some g => { st with name := st.name ++ [g] }
  | none => st

/-- Lines 81–82: append the ISIN if matched. -/
def depotStepIsin (st : DepotState) (line : List Char) : DepotState :=
  match depotIsinG1 line with
  | some g => { st with isin := st.isin ++ [g] }
  | none => st

/-- Lines 83–84: append the quantity if matched; `none` models the
`ValueError` of `float` on an unconvertible capture. -/
def depotStepAmount (st : DepotState) (line : List Char) : Option DepotState :=
  match depotAmountG1 line with
  | some g =>
    match pyFloatOpt (germanNorm g) with
    | some v => some { st with amount := st.amount ++ [v] }
    | none => none
  | none => some st

/-- Lines 85–86: append the price if matched. -/
def depotStepPrice (st : DepotState) (line : List Char) : Option DepotState :=
  match depotPriceG1 line with
  | some g =>
    match pyFloatOpt (germanNorm g) with
    | some v => some { st with price := st.price ++ [v] }
    | none => none
  | none => some st

/-- Lines 87–88: append the market value if matched. -/
def depotStepMarket (st : DepotState) (line : List Char) : Option DepotState :=
  match depotMarketG1 line with
  | some g =>
    match pyFloatOpt (germanNorm g) with
    | some v => some { st with market := st.market ++ [v] }
    | none => none
  | none => some st

/-- The body of the line loop (lines 71–88): each of the six patterns is
searched independently and appends one value to its own sequence exactly
when it matches; a failed `float` conversion aborts the run. -/
def depotStep (st : DepotState) (line : List Char) : Option DepotState :=
  ((depotStepAmount (depotStepIsin (depotStepName (depotStepDate st line) line) line)
      line).bind
    (fun s => depotStepPrice s line)).bind
    (fun s => depotStepMarket s line)

/-- The full line scan of `parse_ing_depotauszug` (lines 58–88). -/
def depotScan (lines : List (List Char)) : Option DepotState :=
  lines.foldlM depotStep ⟨[], [], [], [], [], []⟩

/-! ## TradeConfirmationExtractor (`parse_ing_abrechnung`, lines 96–162)

Python values in the `results` dict of this extractor are all strings (the
code never calls `float` here), while the account-statement extractor
stores floats.  To keep that observable difference, cell values are
modelled with the dynamic-typing universe `PyVal`. -/

/-- A Python value that can sit in a result column: a string or a float. -/
inductive PyVal where
  | str : List Char → PyVal
  | num : ℚ → PyVal
deriving DecidableEq

/-- The string carried by a `PyVal` (every abrechnung cell is a string). -/
def cellStr : PyVal → List Char
  | .str s => s
  | .num _ => []

/-- Model of `(?<=label)(.*?)(?=$|\n)`: the rest of the line after the literal. -/
def abrTailRX (label : String) : RX :=
  rxSeq [behindLit label, .grp (.starL rxAnyC), .look (.alt .eos (litRX ("\n")))]

/-- Model of `\bDatum:\s+(\d{2}\.\d{2}\.\d{4})\b` (line 112). -/
def abrDateRX : RX :=
  rxSeq [.wordb, litRX ("Datum:"), rxPlus rxWs,
    .grp (rxSeq [rxD, rxD, litRX ("."), rxD, rxD, litRX ("."), rxD, rxD, rxD, rxD]), .wordb]

/-- Model of `(?<=um\s)(\d{2}:\d{2}:\d{2})(?=\s*Uhr)` (line 118). -/
def abrTimeRX : RX :=
  rxSeq [.behind [fun c => c == 'u', fun c => c == 'm', isPyWs],
    .grp (rxSeq [rxD, rxD, litRX (":"), rxD, rxD, litRX (":"), rxD, rxD]),
    .look (rxSeq [.starG rxWs, litRX ("Uhr")])]

/-- Search + `.group(1)` for the date (line 112). -/
def abrDateG1 (l : List Char) : Option (List Char) := reSearchG1 abrDateRX l

/-- Search + `.group(1)` for `(?<=Wertpapierbezeichnung )` (line 113). -/
def abrNameG1 (l : List Char) : Option (List Char) :=
  reSearchG1 (abrTailRX ("Wertpapierbezeichnung ")) l

/-- Search + `.group(1)` for `(?<=ISIN \(WKN\) )` (line 114). -/
def abrIsinG1 (l : List Char) : Option (List Char) := reSearchG1 (abrTailRX ("ISIN (WKN) ")) l

/-- Search + `.group(1)` for `(?<=Wertpapierabrechnung )` (line 115). -/
def abrOrderTypeG1 (l : List Char) : Option (List Char) :=
  reSearchG1 (abrTailRX ("Wertpapierabrechnung ")) l

/-- Search + `.group(1)` for `(?<=Ordernummer )` (line 116). -/
def abrOrderNumberG1 (l : List Char) : Option (List Char) :=
  reSearchG1 (abrTailRX ("Ordernummer ")) l

/-- Search + `.group(1)` for `(?<=Handelsplatz )` (line 117). -/
def abrVenueG1 (l : List Char) : Option (List Char) := reSearchG1 (abrTailRX ("Handelsplatz ")) l

/-- Search + `.group(1)` for the execution time (line 118). -/
def abrTimeG1 (l : List Char) : Option (List Char) := reSearchG1 abrTimeRX l

/-- Search + `.group(1)` for `(?<=Nominale Stück )` (line 119). -/
def abrAmountG1 (l : List Char) : Option (List Char) :=
  reSearchG1 (abrTailRX ("Nominale Stück ")) l

/-- Search + `.group(1)` for `(?<=Kurs \(Festpreisgeschäft\) EUR )` (line 120). -/
def abrPriceG1 (l : List Char) : Option (List Char) :=
  reSearchG1 (abrTailRX ("Kurs (Festpreisgeschäft) EUR ")) l

/-- Search + `.group(1)` for `(?<=Endbetrag zu Ihren Lasten EUR )` (line 121). -/
def abrTotalCostG1 (l : List Char) : Option (List Char) :=
  reSearchG1 (abrTailRX ("Endbetrag zu Ihren Lasten EUR ")) l

/-- The ten independently accumulating sequences of `parse_ing_abrechnung`
(`results`, lines 108–109). -/
structure AbrState where
  date : List PyVal
  name : List PyVal
  isin : List PyVal
  orderType : List PyVal
  orderNumber : List PyVal
  tradingVenue : List PyVal
  executionTime : List PyVal
  amount : List PyVal
  price : List PyVal
  totalCost : List PyVal
deriving DecidableEq

/-- Append for the date column (line 138–139). -/
def abrStepDate (st : AbrState) (line : List Char) : AbrState :=
  match abrDateG1 line with
  | some g => { st with date := st.date ++ [PyVal.str g] }
  | none => st

/-- Append for the name column (line 140–141). -/
def abrStepName (st : AbrState) (line : List Char) : AbrState :=
  match abrNameG1 line with
  | some g => { st with name := st.name ++ [PyVal.str g] }
  | none => st

/-- Append for the isin column (line 142–143). -/
def abrStepIsin (st : AbrState) (line : List Char) : AbrState :=
  match abrIsinG1 line with
  | some g => { st with isin := st.isin ++ [PyVal.str g] }
  | none => st

/-- Append for the orderType column (line 144–145). -/
def abrStepOrderType (st : AbrState) (line : List Char) : AbrState :=
  match abrOrderTypeG1 line with
  | some g => { st with orderType := st.orderType ++ [PyVal.str g] }
  | none => st

/-- Append for the orderNumber column (line 146–147). -/
def abrStepOrderNumber (st : AbrState) (line : List Char) : AbrState :=
  match abrOrderNumberG1 line with
  | some g => { st with orderNumber := st.orderNumber ++ [PyVal.str g] }
  | none => st

/-- Append for the tradingVenue column (line 148–149). -/
def abrStepVenue (st : AbrState) (line : List Char) : AbrState :=
  match abrVenueG1 line with
  | some g => { st with tradingVenue := st.tradingVenue ++ [PyVal.str g] }
  | none => st

/-- Append for the executionTime column (line 150–151). -/
def abrStepTime (st : AbrState) (line : List Char) : AbrState :=
  match abrTimeG1 line with
  | some g => { st with executionTime := st.executionTime ++ [PyVal.str g] }
  | none => st

/-- Append for the amount column (line 152–153: raw text, no normalization). -/
def abrStepAmount (st : AbrState) (line : List Char) : AbrState :=
  match abrAmountG1 line with
  | some g => { st with amount := st.amount ++ [PyVal.str g] }
  | none => st

/-- Append for the price column (line 154–155: replace-normalized text). -/
def abrStepPrice (st : AbrState) (line : List Char) : AbrState :=
  match abrPriceG1 line with
  | some g => { st with price := st.price ++ [PyVal.str (germanNorm g)] }
  | none => st

/-- Append for the totalCost column (line 156–157: replace-normalized text). -/
def abrStepTotalCost (st : AbrState) (line : List Char) : AbrState :=
  match abrTotalCostG1 line with
  | some g => { st with totalCost := st.totalCost ++ [PyVal.str (germanNorm g)] }
  | none => st

/-- The body of the line loop (lines 127–157).  Every append stores a
string; `price` and `total cost` get the replace-normalized text (lines
155, 157), `amount` the raw capture (line 153). -/
def abrStep (st : AbrState) (line : List Char) : AbrState :=
  abrStepTotalCost (abrStepPrice (abrStepAmount (abrStepTime (abrStepVenue (abrStepOrderNumber (abrStepOrderType (abrStepIsin (abrStepName (abrStepDate st line) line) line) line) line) line) line) line) line) line

/-- The full line scan of `parse_ing_abrechnung` (lines 108–157). -/
def abrScan (lines : List (List Char)) : AbrState :=
  lines.foldl abrStep ⟨[], [], [], [], [], [], [], [], [], []⟩

/-! ## The command-line entry point (`__main__`, lines 165–223)

The model covers everything after argument parsing: the path kind (an
existing `.pdf` file, a directory with its `.pdf` entries, or an invalid
path) is the input; the observable result is the final outcome (CSV rows
written / informational message / `exit(1)` / an uncaught exception) plus
whether the "is not a recognized format!" diagnostic was printed.

`pd.DataFrame(results)` raises when the accumulated sequences have unequal
lengths, `pd.to_datetime(..., format="%d.%m.%Y")` raises on a calendar-invalid
date, `pd.concat([])` raises `ValueError`, and `[].empty` raises
`AttributeError`; all are modelled explicitly. -/

/-- One row of an assembled DataFrame: the date string plus the remaining
cells in column order. -/
structure GRow where
  date : List Char
  cells : List PyVal
deriving DecidableEq

/-- Read a `dd.mm.yyyy` string as (day, month, year). -/
def parseDMY (l : List Char) : Option (Nat × Nat × Nat) :=
  match l with
  | [d1, d2, '.', m1, m2, '.', y1, y2, y3, y4] =>
    if allDigits [d1, d2, m1, m2, y1, y2, y3, y4] then
      some (10 * dv d1 + dv d2, 10 * dv m1 + dv m2,
        ((dv y1 * 10 + dv y2) * 10 + dv y3) * 10 + dv y4)
    else none
  | _ => none

/-- Day count of a month in the Gregorian calendar. -/
def daysInMonth (m y : Nat) : Nat :=
  if m = 2 then (if y % 4 = 0 && (y % 100 != 0 || y % 400 = 0) then 29 else 28)
  else if m = 4 || m = 6 || m = 9 || m = 11 then 30 else 31

/-- Does `pd.to_datetime(s, format="%d.%m.%Y")` succeed on this string? -/
def toDatetimeOk (l : List Char) : Bool :=
  match parseDMY l with
  | some (d, m, y) => decide (1 ≤ m ∧ m ≤ 12 ∧ 1 ≤ d ∧ d ≤ daysInMonth m y)
  | none => false

/-- Sort key: the chronological order of the parsed datetimes agrees with
the numeric order of `y*10000 + m*100 + d` on format-valid strings. -/
def dateKey (l : List Char) : Nat :=
  match parseDMY l with
  | some (d, m, y) => y * 10000 + m * 100 + d
  | none => 0

/-- Model of `pd.DataFrame` + `pd.to_datetime` of `parse_ing_kontoauszug`
(lines 42–44): requires equal column lengths and valid dates. -/
def kontoAssemble (st : KontoState) : Option (List GRow) :=
  if st.date.length = st.description.length ∧ st.date.length = st.amount.length then
    if st.date.all toDatetimeOk then
      some ((List.range st.date.length).map fun i =>
        ⟨st.date.getD i [],
          [PyVal.str (st.description.getD i []), PyVal.num (st.amount.getD i 0)]⟩)
    else none
  else none

/-- The whole of `parse_ing_kontoauszug` on the extracted lines. -/
def parse_ing_kontoauszug (lines : List (List Char)) : Option (List GRow) :=
  kontoAssemble (kontoScan lines)

/-- Model of `pd.DataFrame` + `pd.to_datetime` of `parse_ing_depotauszug`
(lines 90–93). -/
def depotAssemble (st : DepotState) : Option (List GRow) :=
  if st.date.length = st.name.length ∧ st.date.length = st.isin.length ∧
      st.date.length = st.amount.length ∧ st.date.length = st.price.length ∧
      st.date.length = st.market.length then
    if st.date.all toDatetimeOk then
      some ((List.range st.date.length).map fun i =>
        ⟨st.date.getD i [],
          [PyVal.str (st.name.getD i []), PyVal.str (st.isin.getD i []),
            PyVal.num (st.amount.getD i 0), PyVal.num (st.price.getD i 0),
            PyVal.num (st.market.getD i 0)]⟩)
    else none
  else none

/-- The whole of `parse_ing_depotauszug` on the extracted lines. -/
def parse_ing_depotauszug (lines : List (List Char)) : Option (List GRow) :=
  (depotScan lines).bind depotAssemble

/-- Model of `pd.DataFrame` + `pd.to_datetime` of `parse_ing_abrechnung`
(lines 159–162). -/
def abrAssemble (st : AbrState) : Option (List GRow) :=
  if st.date.length = st.name.length ∧ st.date.length = st.isin.length ∧
      st.date.length = st.orderType.length ∧ st.date.length = st.orderNumber.length ∧
      st.date.length = st.tradingVenue.length ∧ st.date.length = st.executionTime.length ∧
      st.date.length = st.amount.length ∧ st.date.length = st.price.length ∧
      st.date.length = st.totalCost.length then
    if st.date.all (fun c => toDatetimeOk (cellStr c)) then
      some ((List.range st.date.length).map fun i =>
        ⟨cellStr (st.date.getD i (PyVal.str [])),
          [st.name.getD i (PyVal.str []), st.isin.getD i (PyVal.str []),
            st.orderType.getD i (PyVal.str []), st.orderNumber.getD i (PyVal.str []),
            st.tradingVenue.getD i (PyVal.str []), st.executionTime.getD i (PyVal.str []),
            st.amount.getD i (PyVal.str []), st.price.getD i (PyVal.str []),
            st.totalCost.getD i (PyVal.str [])]⟩)
    else none
  else none

/-- The whole of `parse_ing_abrechnung` on the extracted lines. -/
def parse_ing_abrechnung (lines : List (List Char)) : Option (List GRow) :=
  abrAssemble (abrScan lines)

/-- The layout selection of lines 196–207: which parsers run, and whether
the `"... is not a recognized format!"` diagnostic is printed.  The
diagnostic is the `else` of the `'abrechnung'` test alone (the three `if`s
are not chained), so it fires exactly when `'abrechnung'` is absent. -/
structure RouteRes where
  konto : Bool
  depot : Bool
  abrech : Bool
  diag : Bool
deriving DecidableEq

/-- See `RouteRes`. -/
def route (name : List Char) : RouteRes :=
  let low := lowerL name
  ⟨isSubL (("kontoauszug").data) low, isSubL (("depotauszug").data) low,
    isSubL (("abrechnung").data) low, !(isSubL (("abrechnung").data) low)⟩

/-- Index of the last `'.'`, if any. -/
def lastDotIdx (l : List Char) : Option Nat :=
  match l.reverse.findIdx? (fun c => c == '.') with
  | some j => some (l.length - 1 - j)
  | none => none

/-- Model of `pathlib`'s `Path(name).suffix` for a plain file name:
`name[i:]` for the last dot index `i` when `0 < i < len(name) - 1`,
otherwise the empty string. -/
def pySuffix (name : List Char) : List Char :=
  match lastDotIdx name with
  | some i => if 0 < i ∧ i + 1 < name.length then name.drop i else []
  | none => []

/-- Does `path.glob("*.pdf")` list this name (ends with `.pdf`, not a
hidden file)? -/
def globPdf (name : List Char) : Bool :=
  (match name with
    | c :: _ => c != '.'
    | [] => false) && startsWithL ((".pdf").data).reverse name.reverse

/-- An existing file: its name and its extracted text lines. -/
structure FileInput where
  name : List Char
  lines : List (List Char)

/-- The input path: an existing file, an existing directory with its
entries, or neither. -/
inductive MainInput where
  | file : FileInput → MainInput
  | dir : List FileInput → MainInput
  | invalid : MainInput

/-- Observable outcome of a run. -/
inductive MainOut where
  | wrote : List GRow → MainOut
  | info : MainOut
  | invalidExit : MainOut
  | crashAttr : MainOut
  | crashConcat : MainOut
  | crashParse : MainOut
deriving DecidableEq

/-- Outcome plus whether the not-recognized diagnostic was printed. -/
structure MainRes where
  out : MainOut
  notRecognized : Bool
deriving DecidableEq

/-- The value of the variable `df` at line 219: still the initial Python
list `[]`, or a DataFrame. -/
inductive DfVal where
  | initL : DfVal
  | frame : List GRow → DfVal

/-- Model of `df.sort_values("date", ascending=False)` (line 220): the rows
reordered into descending order of the datetime sort key.  (pandas'
default quicksort is unstable, so only the key order is specified;
insertion sort realizes it.) -/
def sortRowsDesc (l : List GRow) : List GRow :=
  l.insertionSort (fun a b => dateKey b.date ≤ dateKey a.date)

/-- Lines 219–223: empty DataFrame → message, no file; otherwise sort by
date descending and write the CSV. -/
def finishDF (rows : List GRow) : MainOut :=
  if rows.isEmpty then .info else .wrote (sortRowsDesc rows)

/-- Line 219 on: `if not df.empty` raises `AttributeError` when `df` is
still the initial list. -/
def runFileFinish (df : DfVal) (diag : Bool) : MainRes :=
  match df with
  | .initL => ⟨.crashAttr, diag⟩
  | .frame rows => ⟨finishDF rows, diag⟩

/-- Lines 204–207: the `'abrechnung'` test and its `else` diagnostic. -/
def runFileAbr (f : FileInput) (df : DfVal) : MainRes :=
  if (route f.name).abrech then
    match parse_ing_abrechnung f.lines with
    | some rows => runFileFinish (.frame rows) false
    | none => ⟨.crashParse, false⟩
  else runFileFinish df true

/-- Lines 201–202: the `'depotauszug'` test. -/
def runFileDepot (f : FileInput) (df : DfVal) : MainRes :=
  if (route f.name).depot then
    match parse_ing_depotauszug f.lines with
    | some rows => runFileAbr f (.frame rows)
    | none => ⟨.crashParse, false⟩
  else runFileAbr f df

/-- Lines 196–207 and 219–223 for a single existing file. -/
def runFile (f : FileInput) : MainRes :=
  if pySuffix f.name = ((".pdf").data) then
    if (route f.name).konto then
      match parse_ing_kontoauszug f.lines with
      | some rows => runFileDepot f (.frame rows)
      | none => ⟨.crashParse, false⟩
    else runFileDepot f .initL
  else ⟨.invalidExit, false⟩

/-- The accumulation loop of lines 209–213 (`df = []`, then
`df.append(parse_ing_kontoauszug(file))` per selected file); the first
parse exception aborts the run. -/
def dirCollectAux (acc : List (List GRow)) :
    List (List (List Char)) → Option (List (List GRow))
  | [] => some acc
  | d :: ds =>
    match parse_ing_kontoauszug d with
    | some fr => dirCollectAux (acc ++ [fr]) ds
    | none => none

/-- See `dirCollectAux`. -/
def dirCollect (docs : List (List (List Char))) : Option (List (List GRow)) :=
  dirCollectAux [] docs

/-- Lines 208–214 and 219–223 for a directory: select `*.pdf` entries whose
lowered name contains `"kontoauszug"` and the lowered account filter, parse
each, then `pd.concat` (which raises `ValueError` on an empty list). -/
def runDir (files : List FileInput) (account : List Char) : MainRes :=
  let sel := files.filter (fun f => globPdf f.name &&
    isSubL (("kontoauszug").data) (lowerL f.name) && isSubL (lowerL account) (lowerL f.name))
  match dirCollect (sel.map (fun f => f.lines)) with
  | none => ⟨.crashParse, false⟩
  | some frames =>
    if frames.isEmpty then ⟨.crashConcat, false⟩
    else ⟨finishDF frames.flatten, false⟩

/-- The whole `__main__` behaviour after argument parsing (lines 193–223). -/
def runMain (inp : MainInput) (account : List Char) : MainRes :=
  match inp with
  | .file f => runFile f
  | .dir files => runDir files account
  | .invalid => ⟨.invalidExit, false⟩

/-! ## Specification-level grammars

The claims speak about lines that "end with a monetary amount matching
`[-]digits(.digits)*,digits`" and "begin with a `DD.MM.YYYY` date
(day 01–31, month 01–12, year 19xx/20xx)".  The following predicates state
those grammars structurally (with the arities of the source pattern:
1–3 leading digits, three-digit thousands groups, two cent digits), to be
related to the executable deciders above. -/

/-- A nonempty string of digits (`\d+`). -/
def DigitsP (l : List Char) : Prop := l ≠ [] ∧ ∀ c ∈ l, isDig c = true

/-- A (possibly empty) sequence of `.ddd` thousands groups. -/
def GroupsP (l : List Char) : Prop :=
  ∃ gs : List (List Char), l = (gs.map (fun g => '.' :: g)).flatten ∧
    ∀ g ∈ gs, g.length = 3 ∧ ∀ c ∈ g, isDig c = true

/-- The integer part `\d{1,3}(\.\d{3})*|\d+`. -/
def IntPartP (l : List Char) : Prop :=
  DigitsP l ∨
    ∃ h t, l = h ++ t ∧ 1 ≤ h.length ∧ h.length ≤ 3 ∧ (∀ c ∈ h, isDig c = true) ∧ GroupsP t

/-- A monetary amount: optional minus, integer part, comma, two cent
digits. -/
def AmountP (a : List Char) : Prop :=
  ∃ sgn ip f1 f2, a = sgn ++ ip ++ ',' :: [f1, f2] ∧ (sgn = [] ∨ sgn = ['-']) ∧
    IntPartP ip ∧ isDig f1 = true ∧ isDig f2 = true

/-- A `DD.MM.YYYY` date with day 01–31, month 01–12 and year 19xx/20xx. -/
def DateP (d : List Char) : Prop :=
  ∃ d1 d2 m1 m2 y1 y2 y3 y4, d = [d1, d2, '.', m1, m2, '.', y1, y2, y3, y4] ∧
    isDig d1 = true ∧ isDig d2 = true ∧ isDig m1 = true ∧ isDig m2 = true ∧
    isDig y3 = true ∧ isDig y4 = true ∧
    1 ≤ 10 * dv d1 + dv d2 ∧ 10 * dv d1 + dv d2 ≤ 31 ∧
    1 ≤ 10 * dv m1 + dv m2 ∧ 10 * dv m1 + dv m2 ≤ 12 ∧
    ([y1, y2] = ['1', '9'] ∨ [y1, y2] = ['2', '0'])

/-- Parsing each document independently of all others (the right-hand side
of the statelessness property C9). -/
def parseEachKonto : List (List (List Char)) → Option (List (List GRow))
  | [] => some []
  | d :: ds =>
    match parse_ing_kontoauszug d, parseEachKonto ds with
    | some fr, some frs => some (fr :: frs)
    | _, _ => none

instance : IsTotal GRow (fun (a b : GRow) => dateKey b.date ≤ dateKey a.date) :=
  ⟨fun a b => Nat.le_total (dateKey b.date) (dateKey a.date)⟩

instance : IsTrans GRow (fun (a b : GRow) => dateKey b.date ≤ dateKey a.date) :=
  ⟨fun _ _ _ hab hbc => le_trans hbc hab⟩

/-! Concrete fidelity checks of the embedded matchers and of the entry-point model. -/

theorem modelCheck1 : amountSearch (("01.01.2023 Grocery Store 12,50").data) = some (("12,50").data) := by
  decide

theorem modelCheck2 : dateSearch (("01.01.2023 Grocery Store 12,50").data) = some (("01.01.2023").data) := by
  decide

theorem modelCheck3 : kontoLine (("01.01.2023 Grocery Store 12,50").data) =
    some ⟨("01.01.2023").data, ("Grocery Store").data, Rat.divInt 1250 100⟩ := by
  decide

theorem modelCheck4 : kontoLine (("not a transaction line").data) = none := by decide

theorem modelCheck5 : amountSearch (("x 1.234,56").data) = some (("1.234,56").data) := by decide

theorem modelCheck6 : pyFloatOpt (germanNorm (("1.234,56").data)) = some (Rat.divInt 123456 100) := by
  decide

/-! Concrete fidelity checks of the embedded matchers and of the entry-point model. -/

theorem modelCheck7 : depotNameG1 (("Stück Apple 10").data) = some (("Apple").data) := by decide

theorem modelCheck8 : depotIsinG1 (("ISIN (WKN): US0378331005 (865985)").data) =
    some (("US0378331005").data) := by decide

theorem modelCheck9 : depotDateG1 (("Stück Apple 10").data) = none := by decide

theorem modelCheck10 : depotAmountG1 (("Stück Apple 10").data) = none := by decide

theorem modelCheck11 : depotPriceG1 (("Stück Apple 10").data) = none := by decide

theorem modelCheck12 : depotMarketG1 (("Stück Apple 10").data) = none := by decide

theorem modelCheck13 : depotDateG1 (("Depotauszug per 31.12.2023").data) = some (("31.12.2023").data) := by
  decide

theorem modelCheck14 : depotAmountG1 (("10 Stück Apple").data) = some (("10").data) := by decide

theorem modelCheck15 : depotPriceG1 (("12,50 EUR x").data) = some (("12,50").data) := by decide

theorem modelCheck16 : depotPriceG1 (("12,50 EUR").data) = none := by decide

theorem modelCheck17 : depotMarketG1 (("EUR 1.250,00 EUR").data) = some (("1.250,00").data) := by decide

/-! Concrete fidelity checks of the embedded matchers and of the entry-point model. -/

theorem modelCheck18 : abrNameG1 (("Wertpapierbezeichnung Apple Inc.").data) = some (("Apple Inc.").data) := by
  decide

theorem modelCheck19 : abrTimeG1 (("Ausgeführt um 12:30:45 Uhr").data) = some (("12:30:45").data) := by decide

theorem modelCheck20 : abrTimeG1 (("Ausgeführt um 12:30:45 xx").data) = none := by decide

theorem modelCheck21 : abrPriceG1 (("Kurs (Festpreisgeschäft) EUR 1.234,56").data) =
    some (("1.234,56").data) := by decide

theorem modelCheck22 : (abrScan [("Kurs (Festpreisgeschäft) EUR 1.234,56").data]).price =
    [PyVal.str (("1234.56").data)] := by decide

theorem modelCheck23 : abrDateG1 (("Datum: 05.06.2024").data) = some (("05.06.2024").data) := by decide

/-! Concrete fidelity checks of the embedded matchers and of the entry-point model. -/

theorem modelCheck24 : runMain (.file ⟨("statement.pdf").data, []⟩) (("giro").data) =
    ⟨.crashAttr, true⟩ := by decide

theorem modelCheck25 : runMain (.dir []) (("giro").data) = ⟨.crashConcat, false⟩ := by decide

theorem modelCheck26 : runMain (.file ⟨("Kontoauszug_Girokonto.pdf").data, [("nothing here").data]⟩)
    (("giro").data) = ⟨.info, true⟩ := by decide

theorem modelCheck27 : (route (("Kontoauszug_Girokonto.pdf").data)).konto = true := by decide

theorem modelCheck28 : (route (("Kontoauszug_Girokonto.pdf").data)).diag = true := by decide

/-! Concrete fidelity checks of the embedded matchers and of the entry-point model. -/

theorem modelCheck29 : runMain (.dir [⟨("kontoauszug_giro_a.pdf").data, [("01.01.2023 A 1,00").data]⟩,
    ⟨("kontoauszug_giro_b.pdf").data, [("02.01.2023 B 2,00").data]⟩]) (("giro").data) =
    ⟨.wrote [⟨("02.01.2023").data, [PyVal.str (("B").data), PyVal.num (Rat.divInt 200 100)]⟩,
      ⟨("01.01.2023").data, [PyVal.str (("A").data), PyVal.num (Rat.divInt 100 100)]⟩],
      false⟩ := by decide

theorem char_eq_iff_toNat (a b : Char) : a = b ↔ a.toNat = b.toNat := by
  constructor
  · intro h
    rw [h]
  · intro h
    apply Char.ext
    apply UInt32.ext
    simpa [Char.toNat] using h

theorem isDig_iff (c : Char) : isDig c = true ↔ 48 ≤ c.toNat ∧ c.toNat ≤ 57 := by
  simp [isDig]

theorem isDig_ne_comma {c : Char} (h : isDig c = true) : c ≠ ',' := by
  intro hc
  subst hc
  simp [isDig] at h

theorem isDig_ne_dot {c : Char} (h : isDig c = true) : c ≠ '.' := by
  intro hc
  subst hc
  simp [isDig] at h

theorem isDig_ne_minus {c : Char} (h : isDig c = true) : c ≠ '-' := by
  intro hc
  subst hc
  simp [isDig] at h

theorem isDig_ne_plus {c : Char} (h : isDig c = true) : c ≠ '+' := by
  intro hc
  subst hc
  simp [isDig] at h

theorem splitFirst_some_spec {c : Char} {l a b : List Char}
    (h : splitFirst c l = some (a, b)) : l = a ++ c :: b ∧ c ∉ a := by
  induction l generalizing a b with
  | nil => simp [splitFirst] at h
  | cons x xs ih =>
    by_cases hx : x = c
    · subst hx
      simp [splitFirst] at h
      obtain ⟨rfl, rfl⟩ := h
      exact ⟨by simp, by simp⟩
    · simp only [splitFirst, if_neg hx] at h
      cases hs : splitFirst c xs with
      | none =>
        rw [hs] at h
        simp at h
      | some p =>
        obtain ⟨p1, p2⟩ := p
        rw [hs] at h
        simp at h
        obtain ⟨h1, h2⟩ := h
        subst h2
        obtain ⟨hxs, hmem⟩ := ih hs
        subst hxs
        constructor
        · rw [← h1]
          simp
        · rw [← h1]
          intro hc
          rcases List.mem_cons.mp hc with hc | hc
          · exact hx hc.symm
          · exact hmem hc

theorem splitFirst_of_decomp {c : Char} {a : List Char} (b : List Char) (h : c ∉ a) :
    splitFirst c (a ++ c :: b) = some (a, b) := by
  induction a with
  | nil => simp [splitFirst]
  | cons y ys ih =>
    have hy : y ≠ c := fun hc => h (by simp [hc])
    have hys : c ∉ ys := fun hc => h (by simp [hc])
    simp only [List.cons_append, splitFirst, if_neg hy, List.append_eq, ih hys, Option.map_some']

theorem dotGroups_groupsP {l : List Char} (h : dotGroups l = true) : GroupsP l := by
  induction l using dotGroups.induct with
  | case1 => exact ⟨[], by simp, by simp⟩
  | case2 a b c r ih =>
    simp only [dotGroups, Bool.and_eq_true] at h
    obtain ⟨⟨⟨ha, hb⟩, hc⟩, hr⟩ := h
    obtain ⟨gs, hgs, hall⟩ := ih hr
    refine ⟨[a, b, c] :: gs, by simp [hgs], ?_⟩
    intro g hg
    rcases List.mem_cons.mp hg with hg | hg
    · subst hg
      refine ⟨by simp, ?_⟩
      intro x hx
      simp only [List.mem_cons, List.not_mem_nil, or_false] at hx
      rcases hx with rfl | rfl | rfl <;> assumption
    · exact hall g hg
  | case3 l h1 h2 =>
    rw [dotGroups.eq_def] at h
    split at h
    · exact absurd rfl h1
    · exact absurd rfl (h2 _ _ _ _)
    · exact absurd h (by simp)

theorem groupsP_dotGroups {l : List Char} (h : GroupsP l) : dotGroups l = true := by
  obtain ⟨gs, rfl, hall⟩ := h
  induction gs with
  | nil => simp [dotGroups]
  | cons g gs ih =>
    obtain ⟨h3, hd⟩ := hall g (by simp)
    obtain ⟨a, b, c, rfl⟩ := List.length_eq_three.mp h3
    show dotGroups ('.' :: a :: b :: c :: (gs.map (fun g => '.' :: g)).flatten) = true
    simp only [dotGroups, Bool.and_eq_true]
    refine ⟨⟨⟨hd a (by simp), hd b (by simp)⟩, hd c (by simp)⟩, ?_⟩
    exact ih (fun g hg => hall g (List.mem_cons_of_mem _ hg))

theorem dotGroups_singleton (c : Char) : dotGroups [c] = false := by
  rw [dotGroups.eq_def]
  split
  · simp_all
  · simp_all
  · rfl

/-- The shape of `IntPartP` witnessed by `lead13`: head block of one to
three digits, then thousands groups. -/
theorem lead13_spec {l : List Char} (h : lead13 l = true) :
    ∃ hd t, l = hd ++ t ∧ 1 ≤ hd.length ∧ hd.length ≤ 3 ∧
      (∀ c ∈ hd, isDig c = true) ∧ GroupsP t := by
  match l with
  | [] => simp [lead13] at h
  | [c1] =>
    simp only [lead13, dotGroups, Bool.and_eq_true, Bool.or_eq_true] at h
    exact ⟨[c1], [], by simp, by simp, by simp, by simpa using h.1, ⟨[], by simp, by simp⟩⟩
  | [c1, c2] =>
    simp only [lead13, dotGroups_singleton, dotGroups, Bool.and_eq_true, Bool.or_eq_true,
      Bool.false_eq_true, false_or, or_false] at h
    obtain ⟨h1, h2⟩ := h
    exact ⟨[c1, c2], [], by simp, by simp, by simp,
      by simpa using ⟨h1, h2.1⟩, ⟨[], by simp, by simp⟩⟩
  | c1 :: c2 :: c3 :: r3 =>
    simp only [lead13, Bool.and_eq_true, Bool.or_eq_true] at h
    obtain ⟨h1, h⟩ := h
    rcases h with h | ⟨h2, h | ⟨h3, h⟩⟩
    · exact ⟨[c1], c2 :: c3 :: r3, by simp, by simp, by simp, by simpa using h1,
        dotGroups_groupsP h⟩
    · exact ⟨[c1, c2], c3 :: r3, by simp, by simp, by simp, by simpa using ⟨h1, h2⟩,
        dotGroups_groupsP h⟩
    · exact ⟨[c1, c2, c3], r3, by simp, by simp, by simp,
        by simpa using ⟨h1, h2, h3⟩, dotGroups_groupsP h⟩

theorem lead13_of_spec {hd t : List Char} (h1 : 1 ≤ hd.length) (h3 : hd.length ≤ 3)
    (hdig : ∀ c ∈ hd, isDig c = true) (hg : GroupsP t) : lead13 (hd ++ t) = true := by
  match hd with
  | [a] =>
    cases t with
    | nil => simp [lead13, hdig a (by simp), dotGroups]
    | cons x xs =>
      simp only [List.cons_append, List.nil_append, lead13, Bool.and_eq_true, Bool.or_eq_true]
      exact ⟨hdig a (by simp), Or.inl (groupsP_dotGroups hg)⟩
  | [a, b] =>
    simp only [List.cons_append, List.nil_append, lead13, Bool.and_eq_true, Bool.or_eq_true]
    cases t with
    | nil =>
      refine ⟨hdig a (by simp), Or.inr ?_⟩
      exact ⟨hdig b (by simp), Or.inl (groupsP_dotGroups hg)⟩
    | cons x xs =>
      refine ⟨hdig a (by simp), Or.inr ?_⟩
      exact ⟨hdig b (by simp), Or.inl (groupsP_dotGroups hg)⟩
  | [a, b, c] =>
    simp only [List.cons_append, List.nil_append, lead13, Bool.and_eq_true, Bool.or_eq_true]
    refine ⟨hdig a (by simp), Or.inr ⟨hdig b (by simp), Or.inr ⟨hdig c (by simp), ?_⟩⟩⟩
    exact groupsP_dotGroups hg

theorem intPartP_of_decider {ip : List Char}
    (h : ((!ip.isEmpty && allDigits ip) || lead13 ip) = true) : IntPartP ip := by
  simp only [Bool.or_eq_true, Bool.and_eq_true, Bool.not_eq_eq_eq_not, Bool.not_true,
    allDigits, List.all_eq_true] at h
  rcases h with ⟨h1, h2⟩ | h
  · exact Or.inl ⟨by simpa using h1, h2⟩
  · obtain ⟨hd, t, rfl, ha, hb, hc, hg⟩ := lead13_spec h
    exact Or.inr ⟨hd, t, rfl, ha, hb, hc, hg⟩

theorem decider_of_intPartP {ip : List Char} (h : IntPartP ip) :
    ((!ip.isEmpty && allDigits ip) || lead13 ip) = true := by
  rcases h with ⟨h1, h2⟩ | ⟨hd, t, rfl, ha, hb, hc, hg⟩
  · simp only [Bool.or_eq_true, Bool.and_eq_true, Bool.not_eq_eq_eq_not, Bool.not_true,
      allDigits, List.all_eq_true]
    exact Or.inl ⟨by simpa using h1, h2⟩
  · exact Bool.or_eq_true _ _ |>.mpr (Or.inr (lead13_of_spec ha hb hc hg))

theorem intPartP_chars {ip : List Char} (h : IntPartP ip) :
    ∀ c ∈ ip, isDig c = true ∨ c = '.' := by
  intro c hc
  rcases h with ⟨-, h2⟩ | ⟨hd, t, rfl, -, -, hdig, gs, rfl, hall⟩
  · exact Or.inl (h2 c hc)
  · rcases List.mem_append.mp hc with hc | hc
    · exact Or.inl (hdig c hc)
    · obtain ⟨g', hg', hcg⟩ := List.mem_flatten.mp hc
      obtain ⟨g, hg, rfl⟩ := List.mem_map.mp hg'
      rcases List.mem_cons.mp hcg with rfl | hcg
      · exact Or.inr rfl
      · exact Or.inl ((hall g hg).2 c hcg)

theorem intPartP_head {ip : List Char} (h : IntPartP ip) :
    ∃ d t, ip = d :: t ∧ isDig d = true := by
  rcases h with ⟨h1, h2⟩ | ⟨hd, t, rfl, ha, -, hdig, -⟩
  · cases ip with
    | nil => exact absurd rfl h1
    | cons d t => exact ⟨d, t, rfl, h2 d (by simp)⟩
  · cases hd with
    | nil => simp at ha
    | cons d t2 => exact ⟨d, t2 ++ t, by simp, hdig d (by simp)⟩

theorem intPartP_no_comma {ip : List Char} (h : IntPartP ip) : ',' ∉ ip := by
  intro hc
  rcases intPartP_chars h ',' hc with hd | hd
  · simp [isDig] at hd
  · cases hd

theorem matchesAmountTail_spec {l : List Char} (h : matchesAmountTail l = true) :
    ∃ ip f1 f2, l = ip ++ ',' :: [f1, f2] ∧ IntPartP ip ∧ isDig f1 = true ∧ isDig f2 = true := by
  unfold matchesAmountTail at h
  cases hs : splitFirst ',' l with
  | none =>
    rw [hs] at h
    cases h
  | some p =>
    obtain ⟨ip, fr⟩ := p
    rw [hs] at h
    simp only [Bool.and_eq_true, decide_eq_true_eq] at h
    obtain ⟨⟨hlen, hfr⟩, hip⟩ := h
    obtain ⟨f1, f2, rfl⟩ := List.length_eq_two.mp hlen
    obtain ⟨hdec, -⟩ := splitFirst_some_spec hs
    refine ⟨ip, f1, f2, hdec, intPartP_of_decider hip, ?_, ?_⟩
    · simpa [allDigits] using (by simpa [allDigits] using hfr : isDig f1 = true ∧ isDig f2 = true).1
    · exact (by simpa [allDigits] using hfr : isDig f1 = true ∧ isDig f2 = true).2

theorem matchesAmountTail_of_spec {ip : List Char} {f1 f2 : Char} (hip : IntPartP ip)
    (h1 : isDig f1 = true) (h2 : isDig f2 = true) :
    matchesAmountTail (ip ++ ',' :: [f1, f2]) = true := by
  unfold matchesAmountTail
  rw [splitFirst_of_decomp _ (intPartP_no_comma hip)]
  simp only [Bool.and_eq_true, decide_eq_true_eq, Bool.or_eq_true, allDigits,
    List.all_eq_true, Bool.not_eq_eq_eq_not, Bool.not_true]
  refine ⟨⟨rfl, ?_⟩, ?_⟩
  · intro x hx
    simp only [List.mem_cons, List.not_mem_nil, or_false] at hx
    rcases hx with rfl | rfl
    · exact h1
    · exact h2
  · rcases hip with ⟨ha, hb⟩ | ⟨hd3, t3, rfl, ha3, hb3, hc3, hg3⟩
    · exact Or.inl ⟨by simpa using ha, hb⟩
    · exact Or.inr (lead13_of_spec ha3 hb3 hc3 hg3)

theorem amountP_of_matches {a : List Char} (h : matchesAmount a = true) : AmountP a := by
  match a with
  | [] =>
    unfold matchesAmount matchesAmountTail at h
    simp [splitFirst] at h
  | c :: r =>
    rw [show matchesAmount (c :: r) =
      (if c = '-' then matchesAmountTail r else matchesAmountTail (c :: r)) from rfl] at h
    by_cases hc : c = '-'
    · rw [if_pos hc] at h
      subst hc
      obtain ⟨ip, f1, f2, hd, hip, hf1, hf2⟩ := matchesAmountTail_spec h
      exact ⟨['-'], ip, f1, f2, by simp [hd], Or.inr rfl, hip, hf1, hf2⟩
    · rw [if_neg hc] at h
      obtain ⟨ip, f1, f2, hd, hip, hf1, hf2⟩ := matchesAmountTail_spec h
      exact ⟨[], ip, f1, f2, by simp [hd], Or.inl rfl, hip, hf1, hf2⟩

theorem matches_of_amountP {a : List Char} (h : AmountP a) : matchesAmount a = true := by
  obtain ⟨sgn, ip, f1, f2, rfl, hsgn, hip, hf1, hf2⟩ := h
  obtain ⟨d, t, hdt, hd⟩ := intPartP_head hip
  rcases hsgn with rfl | rfl
  · subst hdt
    simp only [List.nil_append, List.cons_append]
    rw [show matchesAmount (d :: (t ++ ',' :: [f1, f2])) =
      (if d = '-' then matchesAmountTail (t ++ ',' :: [f1, f2])
        else matchesAmountTail (d :: (t ++ ',' :: [f1, f2]))) from rfl]
    rw [if_neg (isDig_ne_minus hd)]
    rw [← List.cons_append]
    exact matchesAmountTail_of_spec hip hf1 hf2
  · simp only [List.cons_append, List.nil_append]
    rw [show matchesAmount ('-' :: (ip ++ ',' :: [f1, f2])) =
      matchesAmountTail (ip ++ ',' :: [f1, f2]) from by simp [matchesAmount]]
    exact matchesAmountTail_of_spec hip hf1 hf2

theorem amountSearch_sound {l m : List Char} (h : amountSearch l = some m) :
    matchesAmount m = true ∧ ∃ p, l = p ++ m := by
  induction l with
  | nil =>
    rw [show amountSearch [] = none from rfl] at h
    cases h
  | cons c cs ih =>
    rw [show amountSearch (c :: cs) =
      (if matchesAmount (c :: cs) then some (c :: cs) else amountSearch cs) from rfl] at h
    by_cases hm : matchesAmount (c :: cs) = true
    · rw [if_pos hm] at h
      injection h with h
      subst h
      exact ⟨hm, [], rfl⟩
    · rw [if_neg hm] at h
      obtain ⟨h1, p, hp⟩ := ih h
      exact ⟨h1, c :: p, by simp [hp]⟩

theorem amountSearch_self {s : List Char} (hs : matchesAmount s = true) :
    amountSearch s = some s := by
  cases s with
  | nil => exact absurd hs (by decide)
  | cons c cs =>
    rw [show amountSearch (c :: cs) =
      (if matchesAmount (c :: cs) then some (c :: cs) else amountSearch cs) from rfl]
    rw [if_pos hs]

theorem amountSearch_of_suffix {p s : List Char} (hs : matchesAmount s = true) :
    ∃ m, amountSearch (p ++ s) = some m ∧ s.length ≤ m.length := by
  induction p with
  | nil => exact ⟨s, by simpa using amountSearch_self hs, le_refl _⟩
  | cons c p ih =>
    rw [List.cons_append]
    rw [show amountSearch (c :: (p ++ s)) =
      (if matchesAmount (c :: (p ++ s)) then some (c :: (p ++ s))
        else amountSearch (p ++ s)) from rfl]
    by_cases hm : matchesAmount (c :: (p ++ s)) = true
    · rw [if_pos hm]
      refine ⟨c :: (p ++ s), rfl, ?_⟩
      simp only [List.length_cons, List.length_append]
      omega
    · rw [if_neg hm]
      exact ih

theorem dayOk_iff (a b : Char) :
    dayOk a b = true ↔
      isDig a = true ∧ isDig b = true ∧ 1 ≤ 10 * dv a + dv b ∧ 10 * dv a + dv b ≤ 31 := by
  have e0 : ('0').toNat = 48 := rfl
  have e1 : ('1').toNat = 49 := rfl
  have e2 : ('2').toNat = 50 := rfl
  have e3 : ('3').toNat = 51 := rfl
  simp only [dayOk, isDig, dv, Bool.or_eq_true, Bool.and_eq_true, beq_iff_eq, bne_iff_ne,
    decide_eq_true_eq, ne_eq, char_eq_iff_toNat, e0, e1, e2, e3]
  omega

theorem monthOk_iff (a b : Char) :
    monthOk a b = true ↔
      isDig a = true ∧ isDig b = true ∧ 1 ≤ 10 * dv a + dv b ∧ 10 * dv a + dv b ≤ 12 := by
  have e0 : ('0').toNat = 48 := rfl
  have e1 : ('1').toNat = 49 := rfl
  have e2 : ('2').toNat = 50 := rfl
  simp only [monthOk, isDig, dv, Bool.or_eq_true, Bool.and_eq_true, beq_iff_eq, bne_iff_ne,
    decide_eq_true_eq, ne_eq, char_eq_iff_toNat, e0, e1, e2]
  omega

theorem yearOk_iff (a b : Char) :
    yearOk a b = true ↔ ([a, b] = ['1', '9'] ∨ [a, b] = ['2', '0']) := by
  simp only [yearOk, Bool.or_eq_true, Bool.and_eq_true, beq_iff_eq, List.cons.injEq, and_true]

theorem dateSearch_of_dateP {d r : List Char} (hD : DateP d) :
    dateSearch (d ++ r) = some d := by
  obtain ⟨d1, d2, m1, m2, y1, y2, y3, y4, rfl, q1, q2, q3, q4, q5, q6, q7, q8, q9, q10, q11⟩ := hD
  unfold dateSearch
  rw [if_pos ?hpre]
  case hpre =>
    show (dayOk d1 d2 && monthOk m1 m2 && yearOk y1 y2 && isDig y3 && isDig y4) = true
    simp only [Bool.and_eq_true]
    exact ⟨⟨⟨⟨(dayOk_iff d1 d2).mpr ⟨q1, q2, q7, q8⟩,
      (monthOk_iff m1 m2).mpr ⟨q3, q4, q9, q10⟩⟩, (yearOk_iff y1 y2).mpr q11⟩, q5⟩, q6⟩
  rfl

theorem dateP_length {d : List Char} (hD : DateP d) : d.length = 10 := by
  obtain ⟨d1, d2, m1, m2, y1, y2, y3, y4, rfl, -⟩ := hD
  rfl

theorem filter_dot_of_digits {l : List Char} (h : ∀ c ∈ l, isDig c = true) :
    l.filter (fun c => c != '.') = l := by
  induction l with
  | nil => rfl
  | cons c cs ih =>
    have hc : c ≠ '.' := isDig_ne_dot (h c (by simp))
    rw [List.filter_cons_of_pos (by simpa using hc)]
    rw [ih (fun x hx => h x (List.mem_cons_of_mem _ hx))]

theorem map_comma_of_digits {l : List Char} (h : ∀ c ∈ l, isDig c = true) :
    l.map (fun c => if c = ',' then '.' else c) = l := by
  induction l with
  | nil => rfl
  | cons c cs ih =>
    have hc : c ≠ ',' := isDig_ne_comma (h c (by simp))
    simp only [List.map_cons, if_neg hc]
    rw [ih (fun x hx => h x (List.mem_cons_of_mem _ hx))]

theorem germanNorm_amount {sgn ip : List Char} {f1 f2 : Char} (hsgn : sgn = [] ∨ sgn = ['-'])
    (hip : IntPartP ip) (h1 : isDig f1 = true) (h2 : isDig f2 = true) :
    germanNorm (sgn ++ ip ++ ',' :: [f1, f2]) =
      sgn ++ ip.filter (fun c => c != '.') ++ '.' :: [f1, f2] := by
  unfold germanNorm
  rw [List.filter_append, List.filter_append, List.map_append, List.map_append]
  have hipf : ∀ c ∈ ip.filter (fun c => c != '.'), isDig c = true := by
    intro c hc
    obtain ⟨hmem, hne⟩ := List.mem_filter.mp hc
    rcases intPartP_chars hip c hmem with hd | hd
    · exact hd
    · exact absurd hd (by simpa using hne)
  have hs : (sgn.filter (fun c => c != '.')).map (fun c => if c = ',' then '.' else c) = sgn := by
    rcases hsgn with rfl | rfl
    · rfl
    · rfl
  have ht : ((',' :: [f1, f2]).filter (fun c => c != '.')).map
      (fun c => if c = ',' then '.' else c) = '.' :: [f1, f2] := by
    have e1 : f1 ≠ '.' := isDig_ne_dot h1
    have e2 : f2 ≠ '.' := isDig_ne_dot h2
    have e3 : f1 ≠ ',' := isDig_ne_comma h1
    have e4 : f2 ≠ ',' := isDig_ne_comma h2
    simp [e1, e2, e3, e4]
  rw [hs, ht, map_comma_of_digits hipf]

theorem pyFloatCore_decimal {ds : List Char} {f1 f2 : Char} (sign : Int) (hds : ds ≠ [])
    (hd : ∀ c ∈ ds, isDig c = true) (h1 : isDig f1 = true) (h2 : isDig f2 = true) :
    pyFloatCore sign (ds ++ '.' :: [f1, f2]) =
      some (Rat.divInt (sign * (digitsVal ds * 100 + digitsVal [f1, f2])) 100) := by
  have hnodot : '.' ∉ ds := fun hc => isDig_ne_dot (hd '.' hc) rfl
  have hsp : splitFirst '.' (ds ++ '.' :: [f1, f2]) = some (ds, [f1, f2]) :=
    splitFirst_of_decomp _ hnodot
  simp only [pyFloatCore, hsp]
  rw [if_pos ?hcond]
  case hcond =>
    simp only [Bool.and_eq_true, Bool.or_eq_true, Bool.not_eq_eq_eq_not, Bool.not_true,
      allDigits, List.all_eq_true]
    refine ⟨⟨Or.inl (by simpa using hds), hd⟩, ?_⟩
    intro x hx
    simp only [List.mem_cons, List.not_mem_nil, or_false] at hx
    rcases hx with rfl | rfl
    · exact h1
    · exact h2
  norm_num

theorem pyFloatOpt_pos_decimal {ds : List Char} {f1 f2 : Char} (hds : ds ≠ [])
    (hd : ∀ c ∈ ds, isDig c = true) (h1 : isDig f1 = true) (h2 : isDig f2 = true) :
    pyFloatOpt (ds ++ '.' :: [f1, f2]) =
      some (Rat.divInt (digitsVal ds * 100 + digitsVal [f1, f2]) 100) := by
  cases ds with
  | nil => exact absurd rfl hds
  | cons c cs =>
    have hc : isDig c = true := hd c (by simp)
    rw [List.cons_append]
    rw [show pyFloatOpt (c :: (cs ++ '.' :: [f1, f2])) =
      (if c = '-' then pyFloatCore (-1) (cs ++ '.' :: [f1, f2])
        else if c = '+' then pyFloatCore 1 (cs ++ '.' :: [f1, f2])
        else pyFloatCore 1 (c :: (cs ++ '.' :: [f1, f2]))) from rfl]
    rw [if_neg (isDig_ne_minus hc), if_neg (isDig_ne_plus hc), ← List.cons_append]
    rw [pyFloatCore_decimal 1 hds hd h1 h2]
    norm_num

theorem pyFloatOpt_neg_decimal {ds : List Char} {f1 f2 : Char} (hds : ds ≠ [])
    (hd : ∀ c ∈ ds, isDig c = true) (h1 : isDig f1 = true) (h2 : isDig f2 = true) :
    pyFloatOpt ('-' :: (ds ++ '.' :: [f1, f2])) =
      some (Rat.divInt (-(digitsVal ds * 100 + digitsVal [f1, f2] : Int)) 100) := by
  rw [show pyFloatOpt ('-' :: (ds ++ '.' :: [f1, f2])) =
    pyFloatCore (-1) (ds ++ '.' :: [f1, f2]) from by simp [pyFloatOpt]]
  rw [pyFloatCore_decimal (-1) hds hd h1 h2]
  norm_num

theorem filter_digits_of_intPartP {ip : List Char} (hip : IntPartP ip) :
    ip.filter (fun c => c != '.') ≠ [] ∧
      ∀ c ∈ ip.filter (fun c => c != '.'), isDig c = true := by
  constructor
  · obtain ⟨d, t, rfl, hd⟩ := intPartP_head hip
    rw [List.filter_cons_of_pos (by simpa using isDig_ne_dot hd)]
    simp
  · intro c hc
    obtain ⟨hmem, hne⟩ := List.mem_filter.mp hc
    rcases intPartP_chars hip c hmem with hd | hd
    · exact hd
    · exact absurd hd (by simpa using hne)

/-- The `float` conversion of line 38 on any amount the regex recognizes:
it always succeeds, and its value is the signed decimal with the thousands
dots removed and the comma read as a decimal point. -/
theorem pyFloatOpt_germanNorm_amount {sgn ip : List Char} {f1 f2 : Char}
    (hsgn : sgn = [] ∨ sgn = ['-']) (hip : IntPartP ip)
    (h1 : isDig f1 = true) (h2 : isDig f2 = true) :
    pyFloatOpt (germanNorm (sgn ++ ip ++ ',' :: [f1, f2])) =
      some (Rat.divInt ((if sgn = ['-'] then -1 else 1) *
        (digitsVal (ip.filter (fun c => c != '.')) * 100 + digitsVal [f1, f2])) 100) := by
  rw [germanNorm_amount hsgn hip h1 h2]
  obtain ⟨hne, hdig⟩ := filter_digits_of_intPartP hip
  rcases hsgn with rfl | rfl
  · rw [List.nil_append, pyFloatOpt_pos_decimal hne hdig h1 h2]
    norm_num
  · rw [show ['-'] ++ ip.filter (fun c => c != '.') ++ '.' :: [f1, f2] =
      '-' :: (ip.filter (fun c => c != '.') ++ '.' :: [f1, f2]) from by simp]
    rw [pyFloatOpt_neg_decimal hne hdig h1 h2]
    norm_num

/-- Reading the stored rational as the plain decimal value. -/
theorem divInt_decimal_val (s : Int) (n m : Nat) :
    (Rat.divInt (s * (n * 100 + m)) 100 : ℚ) = (s : ℚ) * ((n : ℚ) + (m : ℚ) / 100) := by
  rw [Rat.divInt_eq_div]
  push_cast
  ring

/-- C1: For every input line that ends with a monetary amount matching
`[-]digits(.digits)*,digits` (with the arities of the source pattern:
1–3 leading digits, three-digit thousands groups, two cent digits) and
begins with a `DD.MM.YYYY` date (day 01–31, month 01–12, year 19xx/20xx),
the account-statement extractor emits exactly one record: its date is the
matched date, its amount is the normalized signed decimal (thousands dots
removed, decimal comma converted to a dot), and its description is the
text strictly between the date and the matched amount, stripped of
surrounding whitespace.  (The matched amount is the longest such suffix,
so it is at least as long as the given one; when date and amount overlap
the description slice is empty by Python slice clamping.) -/
theorem claim1 (line a d pa ra : List Char)
    (hA : AmountP a) (hsuf : line = pa ++ a) (hD : DateP d) (hpre : line = d ++ ra) :
    ∃ mA pm desc amt,
      amountSearch line = some mA ∧ line = pm ++ mA ∧ AmountP mA ∧ a.length ≤ mA.length ∧
      dateSearch line = some d ∧
      desc = pyStrip ((line.take (line.length - mA.length)).drop 10) ∧
      (∃ sgn ip f1 f2, mA = sgn ++ ip ++ ',' :: [f1, f2] ∧ (sgn = [] ∨ sgn = ['-']) ∧
        amt = (if sgn = ['-'] then (-1 : ℚ) else 1) *
          ((digitsVal (ip.filter (fun c => c != '.')) : ℚ) + (digitsVal [f1, f2] : ℚ) / 100)) ∧
      (10 + mA.length ≤ line.length →
        ∃ mid, line = d ++ mid ++ mA ∧ desc = pyStrip mid) ∧
      kontoLine line = some ⟨d, desc, amt⟩ ∧
      (∀ st : KontoState, kontoStep st line =
        ⟨st.date ++ [d], st.description ++ [desc], st.amount ++ [amt]⟩) := by
  have hmatch : matchesAmount a = true := matches_of_amountP hA
  obtain ⟨mA, hsearch, hlen⟩ := amountSearch_of_suffix (p := pa) hmatch
  rw [← hsuf] at hsearch
  obtain ⟨hmA, pm, hpm⟩ := amountSearch_sound hsearch
  have hAm : AmountP mA := amountP_of_matches hmA
  have hdate : dateSearch line = some d := by
    rw [hpre]
    exact dateSearch_of_dateP hD
  obtain ⟨sgn, ip, f1, f2, hEq, hsgn, hip, h1, h2⟩ := hAm
  have hfloat : pyFloatOpt (germanNorm mA) =
      some (Rat.divInt ((if sgn = ['-'] then -1 else 1) *
        (digitsVal (ip.filter (fun c => c != '.')) * 100 + digitsVal [f1, f2])) 100) := by
    rw [hEq]
    exact pyFloatOpt_germanNorm_amount hsgn hip h1 h2
  have hd10 : d.length = 10 := dateP_length hD
  refine ⟨mA, pm, pyStrip ((line.take (line.length - mA.length)).drop 10),
    (pyFloatOpt (germanNorm mA)).getD 0,
    hsearch, hpm, ⟨sgn, ip, f1, f2, hEq, hsgn, hip, h1, h2⟩, hlen, hdate, rfl, ?_, ?_, ?_, ?_⟩
  · refine ⟨sgn, ip, f1, f2, hEq, hsgn, ?_⟩
    rw [hfloat, Option.getD_some, divInt_decimal_val]
    rcases hsgn with rfl | rfl
    · norm_num
    · norm_num
  · intro hfit
    refine ⟨pm.drop 10, ?_, ?_⟩
    · have hpmlen : pm.length = line.length - mA.length := by
        rw [hpm]
        simp
      have h10pm : 10 ≤ pm.length := by
        rw [hpm] at hfit
        simp at hfit
        omega
      have htake : pm.take 10 = d := by
        have t1 : line.take 10 = d := by
          rw [hpre, ← hd10, List.take_left]
        have t2 : line.take 10 = pm.take 10 := by
          rw [hpm, List.take_append_eq_append_take]
          have : 10 - pm.length = 0 := by omega
          rw [this]
          simp
        rw [← t1, t2]
      calc line = pm ++ mA := hpm
        _ = (pm.take 10 ++ pm.drop 10) ++ mA := by rw [List.take_append_drop]
        _ = d ++ pm.drop 10 ++ mA := by rw [htake]
    · have htake2 : line.take (line.length - mA.length) = pm := by
        rw [hpm]
        rw [show (pm ++ mA).length - mA.length = pm.length from by simp]
        exact List.take_left pm mA
      rw [htake2]
  · simp only [kontoLine, hsearch, hdate, hd10]
  · intro st
    simp only [kontoStep, kontoLine, hsearch, hdate, hd10]

/-- Witness for `claim1` at the spec's own example line
`01.01.2023 Grocery Store 12,50`. -/
theorem claim1_witness :
    AmountP (("12,50").data) ∧ DateP (("01.01.2023").data) ∧
    (∃ mA pm desc amt,
      amountSearch (("01.01.2023 Grocery Store 12,50").data) = some mA ∧
      ("01.01.2023 Grocery Store 12,50").data = pm ++ mA ∧ AmountP mA ∧
      (("12,50").data).length ≤ mA.length ∧
      dateSearch (("01.01.2023 Grocery Store 12,50").data) = some (("01.01.2023").data) ∧
      desc = pyStrip (((("01.01.2023 Grocery Store 12,50").data).take
        ((("01.01.2023 Grocery Store 12,50").data).length - mA.length)).drop 10) ∧
      (∃ sgn ip f1 f2, mA = sgn ++ ip ++ ',' :: [f1, f2] ∧ (sgn = [] ∨ sgn = ['-']) ∧
        amt = (if sgn = ['-'] then (-1 : ℚ) else 1) *
          ((digitsVal (ip.filter (fun c => c != '.')) : ℚ) + (digitsVal [f1, f2] : ℚ) / 100)) ∧
      (10 + mA.length ≤ (("01.01.2023 Grocery Store 12,50").data).length →
        ∃ mid, ("01.01.2023 Grocery Store 12,50").data = ("01.01.2023").data ++ mid ++ mA ∧
          desc = pyStrip mid) ∧
      kontoLine (("01.01.2023 Grocery Store 12,50").data) =
        some ⟨("01.01.2023").data, desc, amt⟩ ∧
      (∀ st : KontoState, kontoStep st (("01.01.2023 Grocery Store 12,50").data) =
        ⟨st.date ++ [("01.01.2023").data], st.description ++ [desc],
          st.amount ++ [amt]⟩)) := by
  have hA : AmountP (("12,50").data) :=
    ⟨[], ("12").data, '5', '0', by decide, Or.inl rfl,
      Or.inl ⟨by decide, by decide⟩, by decide, by decide⟩
  have hD : DateP (("01.01.2023").data) :=
    ⟨'0', '1', '0', '1', '2', '0', '2', '3', by decide, by decide, by decide, by decide,
      by decide, by decide, by decide, by decide, by decide, by decide, by decide,
      Or.inr (by decide)⟩
  exact ⟨hA, hD, claim1 (("01.01.2023 Grocery Store 12,50").data) (("12,50").data)
    (("01.01.2023").data) (("01.01.2023 Grocery Store ").data) ((" Grocery Store 12,50").data)
    hA (by decide) hD (by decide)⟩

/-- C6: the German-locale numeric normalization used by the extractors
(remove thousands dots, turn the decimal comma into a point, convert with
`float`) maps the text `1.234,56` to the decimal value 1234.56 and the
text `-12,00` to the decimal value -12.00. -/
theorem claim6 :
    pyFloatOpt (germanNorm (("1.234,56").data)) = some ((1234.56 : ℚ)) ∧
    pyFloatOpt (germanNorm (("-12,00").data)) = some ((-12.00 : ℚ)) := by
  have h1 : pyFloatOpt (germanNorm (("1.234,56").data)) = some (Rat.divInt 123456 100) := by
    decide
  have h2 : pyFloatOpt (germanNorm (("-12,00").data)) = some (Rat.divInt (-1200) 100) := by
    decide
  rw [h1, h2]
  constructor
  · congr 1
    rw [Rat.divInt_eq_div]
    norm_num
  · congr 1
    rw [Rat.divInt_eq_div]
    norm_num

/-- C7: an input line on which the trailing-amount search or the
leading-date search fails contributes no record and raises no error: the
account-statement scan over the remaining lines is unchanged by the
presence of such a line. -/
theorem claim7 (pre post : List (List Char)) (line : List Char)
    (h : amountSearch line = none ∨ dateSearch line = none) :
    kontoLine line = none ∧
      kontoScan (pre ++ line :: post) = kontoScan (pre ++ post) := by
  have hline : kontoLine line = none := by
    rcases h with h | h
    · simp only [kontoLine, h]
    · cases ha : amountSearch line with
      | none => simp only [kontoLine, ha]
      | some a => simp only [kontoLine, ha, h]
  refine ⟨hline, ?_⟩
  unfold kontoScan
  rw [List.foldl_append, List.foldl_append, List.foldl_cons]
  simp only [kontoStep, hline]

/-- Witness for `claim7`: a header-like line with no trailing amount is
skipped and leaves the scan of the surrounding lines unchanged. -/
theorem claim7_witness :
    (amountSearch (("Buchung Girokonto").data) = none ∨
      dateSearch (("Buchung Girokonto").data) = none) ∧
    kontoLine (("Buchung Girokonto").data) = none ∧
    kontoScan ([("01.01.2023 A 1,00").data] ++
        ("Buchung Girokonto").data :: [("02.01.2023 B 2,00").data]) =
      kontoScan ([("01.01.2023 A 1,00").data] ++ [("02.01.2023 B 2,00").data]) :=
  ⟨Or.inl (by decide),
    claim7 [("01.01.2023 A 1,00").data] [("02.01.2023 B 2,00").data]
      (("Buchung Girokonto").data) (Or.inl (by decide))⟩

/-- C10: the three sequences of the account-statement extractor always
have equal length — a matching line appends exactly one value to each of
date, description and amount, and any other line appends to none — so the
account-statement table is row-aligned: row i of each column comes from
the same source line. -/
theorem claim10 :
    (∀ lines : List (List Char),
      (kontoScan lines).date.length = (kontoScan lines).description.length ∧
      (kontoScan lines).date.length = (kontoScan lines).amount.length) ∧
    (∀ (st : KontoState) (line : List Char),
      (kontoLine line = none → kontoStep st line = st) ∧
      (∀ r, kontoLine line = some r → kontoStep st line =
        ⟨st.date ++ [r.date], st.description ++ [r.description],
          st.amount ++ [r.amount]⟩)) := by
  constructor
  · intro lines
    suffices h : ∀ st : KontoState,
        st.date.length = st.description.length → st.date.length = st.amount.length →
        (lines.foldl kontoStep st).date.length =
            (lines.foldl kontoStep st).description.length ∧
        (lines.foldl kontoStep st).date.length = (lines.foldl kontoStep st).amount.length by
      exact h ⟨[], [], []⟩ rfl rfl
    induction lines with
    | nil =>
      intro st h1 h2
      exact ⟨h1, h2⟩
    | cons l ls ih =>
      intro st h1 h2
      rw [List.foldl_cons]
      cases hl : kontoLine l with
      | none =>
        apply ih
        · simp [kontoStep, hl, h1]
        · simp [kontoStep, hl, h2]
      | some r =>
        apply ih
        · simp [kontoStep, hl, h1]
        · simp [kontoStep, hl, h2]
  · intro st line
    constructor
    · intro h
      simp [kontoStep, h]
    · intro r h
      simp [kontoStep, h]

theorem dirCollectAux_eq (docs : List (List (List Char))) :
    ∀ acc, dirCollectAux acc docs = (parseEachKonto docs).map (fun fs => acc ++ fs) := by
  induction docs with
  | nil =>
    intro acc
    simp [dirCollectAux, parseEachKonto]
  | cons d ds ih =>
    intro acc
    rw [show dirCollectAux acc (d :: ds) = (match parse_ing_kontoauszug d with
      | some fr => dirCollectAux (acc ++ [fr]) ds
      | none => none) from rfl]
    cases hp : parse_ing_kontoauszug d with
    | none => simp [parseEachKonto, hp]
    | some fr =>
      show dirCollectAux (acc ++ [fr]) ds = _
      rw [ih]
      simp only [parseEachKonto, hp]
      cases parseEachKonto ds <;> simp

/-- C9: every extractor is a pure, deterministic function of its input
lines; in particular the sequential directory loop produces, document by
document, exactly the result of parsing each document independently (no
state is carried across invocations or documents), and parsing the same
lines twice gives the same table. -/
theorem claim9 :
    (∀ docs : List (List (List Char)), dirCollect docs = parseEachKonto docs) ∧
    (∀ (lines : List (List Char)) (t1 t2 : Option (List GRow)),
      parse_ing_kontoauszug lines = t1 → parse_ing_kontoauszug lines = t2 → t1 = t2) := by
  constructor
  · intro docs
    unfold dirCollect
    rw [dirCollectAux_eq]
    cases parseEachKonto docs <;> simp
  · intro lines t1 t2 h1 h2
    rw [← h1, ← h2]

theorem depotStepDate_spec (st : DepotState) (line : List Char) :
    (depotStepDate st line).name = st.name ∧ (depotStepDate st line).isin = st.isin ∧
    (depotStepDate st line).amount = st.amount ∧ (depotStepDate st line).price = st.price ∧
    (depotStepDate st line).market = st.market ∧
    (depotStepDate st line).date = st.date ++ (depotDateG1 line).toList := by
  cases hg : depotDateG1 line <;> simp [depotStepDate, hg]

theorem depotStepName_spec (st : DepotState) (line : List Char) :
    (depotStepName st line).date = st.date ∧ (depotStepName st line).isin = st.isin ∧
    (depotStepName st line).amount = st.amount ∧ (depotStepName st line).price = st.price ∧
    (depotStepName st line).market = st.market ∧
    (depotStepName st line).name = st.name ++ (depotNameG1 line).toList := by
  cases hg : depotNameG1 line <;> simp [depotStepName, hg]

theorem depotStepIsin_spec (st : DepotState) (line : List Char) :
    (depotStepIsin st line).date = st.date ∧ (depotStepIsin st line).name = st.name ∧
    (depotStepIsin st line).amount = st.amount ∧ (depotStepIsin st line).price = st.price ∧
    (depotStepIsin st line).market = st.market ∧
    (depotStepIsin st line).isin = st.isin ++ (depotIsinG1 line).toList := by
  cases hg : depotIsinG1 line <;> simp [depotStepIsin, hg]

theorem depotStepAmount_spec {st st' : DepotState} {line : List Char}
    (h : depotStepAmount st line = some st') :
    st'.date = st.date ∧ st'.name = st.name ∧ st'.isin = st.isin ∧
    st'.price = st.price ∧ st'.market = st.market ∧
    ∃ v, st'.amount = st.amount ++ ((depotAmountG1 line).map (fun _ => v)).toList := by
  unfold depotStepAmount at h
  cases hg : depotAmountG1 line with
  | none =>
    rw [hg] at h
    simp only [Option.some.injEq] at h
    subst h
    exact ⟨rfl, rfl, rfl, rfl, rfl, 0, by simp⟩
  | some g =>
    rw [hg] at h
    cases hv : pyFloatOpt (germanNorm g) with
    | none =>
      simp only [hv] at h
      cases h
    | some v =>
      simp only [hv, Option.some.injEq] at h
      subst h
      exact ⟨rfl, rfl, rfl, rfl, rfl, v, by simp⟩

theorem depotStepPrice_spec {st st' : DepotState} {line : List Char}
    (h : depotStepPrice st line = some st') :
    st'.date = st.date ∧ st'.name = st.name ∧ st'.isin = st.isin ∧
    st'.amount = st.amount ∧ st'.market = st.market ∧
    ∃ v, st'.price = st.price ++ ((depotPriceG1 line).map (fun _ => v)).toList := by
  unfold depotStepPrice at h
  cases hg : depotPriceG1 line with
  | none =>
    rw [hg] at h
    simp only [Option.some.injEq] at h
    subst h
    exact ⟨rfl, rfl, rfl, rfl, rfl, 0, by simp⟩
  | some g =>
    rw [hg] at h
    cases hv : pyFloatOpt (germanNorm g) with
    | none =>
      simp only [hv] at h
      cases h
    | some v =>
      simp only [hv, Option.some.injEq] at h
      subst h
      exact ⟨rfl, rfl, rfl, rfl, rfl, v, by simp⟩

theorem depotStepMarket_spec {st st' : DepotState} {line : List Char}
    (h : depotStepMarket st line = some st') :
    st'.date = st.date ∧ st'.name = st.name ∧ st'.isin = st.isin ∧
    st'.amount = st.amount ∧ st'.price = st.price ∧
    ∃ v, st'.market = st.market ++ ((depotMarketG1 line).map (fun _ => v)).toList := by
  unfold depotStepMarket at h
  cases hg : depotMarketG1 line with
  | none =>
    rw [hg] at h
    simp only [Option.some.injEq] at h
    subst h
    exact ⟨rfl, rfl, rfl, rfl, rfl, 0, by simp⟩
  | some g =>
    rw [hg] at h
    cases hv : pyFloatOpt (germanNorm g) with
    | none =>
      simp only [hv] at h
      cases h
    | some v =>
      simp only [hv, Option.some.injEq] at h
      subst h
      exact ⟨rfl, rfl, rfl, rfl, rfl, v, by simp⟩

/-- C2: in the depot-statement extractor each of the six field sequences
grows independently: a line that matches a field's pattern appends exactly
one value to that field's sequence, and a line that does not match appends
nothing (no placeholder).  In particular, for an input whose first line
yields only a name and whose second line yields only an ISIN, the result
has name and isin sequences of length one and all other sequences empty —
no cross-padding. -/
theorem claim2 (st st' : DepotState) (line : List Char) (h : depotStep st line = some st') :
    st'.date = st.date ++ (depotDateG1 line).toList ∧
    st'.name = st.name ++ (depotNameG1 line).toList ∧
    st'.isin = st.isin ++ (depotIsinG1 line).toList ∧
    (∃ v, st'.amount = st.amount ++ ((depotAmountG1 line).map (fun _ => v)).toList) ∧
    (∃ v, st'.price = st.price ++ ((depotPriceG1 line).map (fun _ => v)).toList) ∧
    (∃ v, st'.market = st.market ++ ((depotMarketG1 line).map (fun _ => v)).toList) ∧
    depotScan [("Stück Apple 10").data, ("ISIN (WKN): US0378331005 (865985)").data] =
      some ⟨[], [("Apple").data], [("US0378331005").data], [], [], []⟩ := by
  unfold depotStep at h
  rcases Option.bind_eq_some.mp h with ⟨s2, hs2, hmk⟩
  rcases Option.bind_eq_some.mp hs2 with ⟨s1, hs1, hpr⟩
  obtain ⟨aD, aN, aI, aP, aM, va, ha⟩ := depotStepAmount_spec hs1
  obtain ⟨pD, pN, pI, pA, pM, vp, hp⟩ := depotStepPrice_spec hpr
  obtain ⟨mD, mN, mI, mA, mP, vm, hm⟩ := depotStepMarket_spec hmk
  obtain ⟨iD, iN, iA, iP, iM, iOwn⟩ :=
    depotStepIsin_spec (depotStepName (depotStepDate st line) line) line
  obtain ⟨nD, nI, nA, nP, nM, nOwn⟩ := depotStepName_spec (depotStepDate st line) line
  obtain ⟨dN, dI, dA, dP, dM, dOwn⟩ := depotStepDate_spec st line
  refine ⟨?_, ?_, ?_, ⟨va, ?_⟩, ⟨vp, ?_⟩, ⟨vm, ?_⟩, by decide⟩
  · rw [mD, pD, aD, iD, nD, dOwn]
  · rw [mN, pN, aN, iN, nOwn, dN]
  · rw [mI, pI, aI, iOwn, nI, dI]
  · rw [mA, pA, ha, iA, nA, dA]
  · rw [mP, hp, aP, iP, nP, dP]
  · rw [hm, pM, aM, iM, nM, dM]

theorem abrStepDate_spec (st : AbrState) (line : List Char) :
    (abrStepDate st line).name = st.name ∧
    (abrStepDate st line).isin = st.isin ∧
    (abrStepDate st line).orderType = st.orderType ∧
    (abrStepDate st line).orderNumber = st.orderNumber ∧
    (abrStepDate st line).tradingVenue = st.tradingVenue ∧
    (abrStepDate st line).executionTime = st.executionTime ∧
    (abrStepDate st line).amount = st.amount ∧
    (abrStepDate st line).price = st.price ∧
    (abrStepDate st line).totalCost = st.totalCost ∧
    (∀ g, abrDateG1 line = some g → (abrStepDate st line).date = st.date ++ [PyVal.str g]) ∧
    (abrDateG1 line = none → (abrStepDate st line).date = st.date) := by
  cases hg : abrDateG1 line <;>
    simp [abrStepDate, hg]

theorem abrStepName_spec (st : AbrState) (line : List Char) :
    (abrStepName st line).date = st.date ∧
    (abrStepName st line).isin = st.isin ∧
    (abrStepName st line).orderType = st.orderType ∧
    (abrStepName st line).orderNumber = st.orderNumber ∧
    (abrStepName st line).tradingVenue = st.tradingVenue ∧
    (abrStepName st line).executionTime = st.executionTime ∧
    (abrStepName st line).amount = st.amount ∧
    (abrStepName st line).price = st.price ∧
    (abrStepName st line).totalCost = st.totalCost ∧
    (∀ g, abrNameG1 line = some g → (abrStepName st line).name = st.name ++ [PyVal.str g]) ∧
    (abrNameG1 line = none → (abrStepName st line).name = st.name) := by
  cases hg : abrNameG1 line <;>
    simp [abrStepName, hg]

theorem abrStepIsin_spec (st : AbrState) (line : List Char) :
    (abrStepIsin st line).date = st.date ∧
    (abrStepIsin st line).name = st.name ∧
    (abrStepIsin st line).orderType = st.orderType ∧
    (abrStepIsin st line).orderNumber = st.orderNumber ∧
    (abrStepIsin st line).tradingVenue = st.tradingVenue ∧
    (abrStepIsin st line).executionTime = st.executionTime ∧
    (abrStepIsin st line).amount = st.amount ∧
    (abrStepIsin st line).price = st.price ∧
    (abrStepIsin st line).totalCost = st.totalCost ∧
    (∀ g, abrIsinG1 line = some g → (abrStepIsin st line).isin = st.isin ++ [PyVal.str g]) ∧
    (abrIsinG1 line = none → (abrStepIsin st line).isin = st.isin) := by
  cases hg : abrIsinG1 line <;>
    simp [abrStepIsin, hg]

theorem abrStepOrderType_spec (st : AbrState) (line : List Char) :
    (abrStepOrderType st line).date = st.date ∧
    (abrStepOrderType st line).name = st.name ∧
    (abrStepOrderType st line).isin = st.isin ∧
    (abrStepOrderType st line).orderNumber = st.orderNumber ∧
    (abrStepOrderType st line).tradingVenue = st.tradingVenue ∧
    (abrStepOrderType st line).executionTime = st.executionTime ∧
    (abrStepOrderType st line).amount = st.amount ∧
    (abrStepOrderType st line).price = st.price ∧
    (abrStepOrderType st line).totalCost = st.totalCost ∧
    (∀ g, abrOrderTypeG1 line = some g → (abrStepOrderType st line).orderType = st.orderType ++ [PyVal.str g]) ∧
    (abrOrderTypeG1 line = none → (abrStepOrderType st line).orderType = st.orderType) := by
  cases hg : abrOrderTypeG1 line <;>
    simp [abrStepOrderType, hg]

theorem abrStepOrderNumber_spec (st : AbrState) (line : List Char) :
    (abrStepOrderNumber st line).date = st.date ∧
    (abrStepOrderNumber st line).name = st.name ∧
    (abrStepOrderNumber st line).isin = st.isin ∧
    (abrStepOrderNumber st line).orderType = st.orderType ∧
    (abrStepOrderNumber st line).tradingVenue = st.tradingVenue ∧
    (abrStepOrderNumber st line).executionTime = st.executionTime ∧
    (abrStepOrderNumber st line).amount = st.amount ∧
    (abrStepOrderNumber st line).price = st.price ∧
    (abrStepOrderNumber st line).totalCost = st.totalCost ∧
    (∀ g, abrOrderNumberG1 line = some g → (abrStepOrderNumber st line).orderNumber = st.orderNumber ++ [PyVal.str g]) ∧
    (abrOrderNumberG1 line = none → (abrStepOrderNumber st line).orderNumber = st.orderNumber) := by
  cases hg : abrOrderNumberG1 line <;>
    simp [abrStepOrderNumber, hg]

theorem abrStepVenue_spec (st : AbrState) (line : List Char) :
    (abrStepVenue st line).date = st.date ∧
    (abrStepVenue st line).name = st.name ∧
    (abrStepVenue st line).isin = st.isin ∧
    (abrStepVenue st line).orderType = st.orderType ∧
    (abrStepVenue st line).orderNumber = st.orderNumber ∧
    (abrStepVenue st line).executionTime = st.executionTime ∧
    (abrStepVenue st line).amount = st.amount ∧
    (abrStepVenue st line).price = st.price ∧
    (abrStepVenue st line).totalCost = st.totalCost ∧
    (∀ g, abrVenueG1 line = some g → (abrStepVenue st line).tradingVenue = st.tradingVenue ++ [PyVal.str g]) ∧
    (abrVenueG1 line = none → (abrStepVenue st line).tradingVenue = st.tradingVenue) := by
  cases hg : abrVenueG1 line <;>
    simp [abrStepVenue, hg]

theorem abrStepTime_spec (st : AbrState) (line : List Char) :
    (abrStepTime st line).date = st.date ∧
    (abrStepTime st line).name = st.name ∧
    (abrStepTime st line).isin = st.isin ∧
    (abrStepTime st line).orderType = st.orderType ∧
    (abrStepTime st line).orderNumber = st.orderNumber ∧
    (abrStepTime st line).tradingVenue = st.tradingVenue ∧
    (abrStepTime st line).amount = st.amount ∧
    (abrStepTime st line).price = st.price ∧
    (abrStepTime st line).totalCost = st.totalCost ∧
    (∀ g, abrTimeG1 line = some g → (abrStepTime st line).executionTime = st.executionTime ++ [PyVal.str g]) ∧
    (abrTimeG1 line = none → (abrStepTime st line).executionTime = st.executionTime) := by
  cases hg : abrTimeG1 line <;>
    simp [abrStepTime, hg]

theorem abrStepAmount_spec (st : AbrState) (line : List Char) :
    (abrStepAmount st line).date = st.date ∧
    (abrStepAmount st line).name = st.name ∧
    (abrStepAmount st line).isin = st.isin ∧
    (abrStepAmount st line).orderType = st.orderType ∧
    (abrStepAmount st line).orderNumber = st.orderNumber ∧
    (abrStepAmount st line).tradingVenue = st.tradingVenue ∧
    (abrStepAmount st line).executionTime = st.executionTime ∧
    (abrStepAmount st line).price = st.price ∧
    (abrStepAmount st line).totalCost = st.totalCost ∧
    (∀ g, abrAmountG1 line = some g → (abrStepAmount st line).amount = st.amount ++ [PyVal.str g]) ∧
    (abrAmountG1 line = none → (abrStepAmount st line).amount = st.amount) := by
  cases hg : abrAmountG1 line <;>
    simp [abrStepAmount, hg]

theorem abrStepPrice_spec (st : AbrState) (line : List Char) :
    (abrStepPrice st line).date = st.date ∧
    (abrStepPrice st line).name = st.name ∧
    (abrStepPrice st line).isin = st.isin ∧
    (abrStepPrice st line).orderType = st.orderType ∧
    (abrStepPrice st line).orderNumber = st.orderNumber ∧
    (abrStepPrice st line).tradingVenue = st.tradingVenue ∧
    (abrStepPrice st line).executionTime = st.executionTime ∧
    (abrStepPrice st line).amount = st.amount ∧
    (abrStepPrice st line).totalCost = st.totalCost ∧
    (∀ g, abrPriceG1 line = some g → (abrStepPrice st line).price = st.price ++ [PyVal.str (germanNorm g)]) ∧
    (abrPriceG1 line = none → (abrStepPrice st line).price = st.price) := by
  cases hg : abrPriceG1 line <;>
    simp [abrStepPrice, hg]

theorem abrStepTotalCost_spec (st : AbrState) (line : List Char) :
    (abrStepTotalCost st line).date = st.date ∧
    (abrStepTotalCost st line).name = st.name ∧
    (abrStepTotalCost st line).isin = st.isin ∧
    (abrStepTotalCost st line).orderType = st.orderType ∧
    (abrStepTotalCost st line).orderNumber = st.orderNumber ∧
    (abrStepTotalCost st line).tradingVenue = st.tradingVenue ∧
    (abrStepTotalCost st line).executionTime = st.executionTime ∧
    (abrStepTotalCost st line).amount = st.amount ∧
    (abrStepTotalCost st line).price = st.price ∧
    (∀ g, abrTotalCostG1 line = some g → (abrStepTotalCost st line).totalCost = st.totalCost ++ [PyVal.str (germanNorm g)]) ∧
    (abrTotalCostG1 line = none → (abrStepTotalCost st line).totalCost = st.totalCost) := by
  cases hg : abrTotalCostG1 line <;>
    simp [abrStepTotalCost, hg]

/-- C3 (amended): in the trade-confirmation extractor, price and
total_cost undergo only the replace-based part of the German-locale
normalization (thousands dots removed, decimal comma converted to a dot)
and are stored as raw text — no parse into a signed decimal number is
performed — while amount is retained as the raw matched text with no
normalization at all. -/
theorem claim3_amended (st : AbrState) (line gp gt ga : List Char)
    (hp : abrPriceG1 line = some gp) (ht : abrTotalCostG1 line = some gt)
    (ha : abrAmountG1 line = some ga) :
    (abrStep st line).price = st.price ++ [PyVal.str (germanNorm gp)] ∧
    (abrStep st line).totalCost = st.totalCost ++ [PyVal.str (germanNorm gt)] ∧
    (abrStep st line).amount = st.amount ++ [PyVal.str ga] := by
  obtain ⟨hD0, hD1, hD2, hD3, hD4, hD5, hD6, hD7, hD8, hDS, hDN⟩ := abrStepDate_spec st line
  obtain ⟨hN0, hN1, hN2, hN3, hN4, hN5, hN6, hN7, hN8, hNS, hNN⟩ := abrStepName_spec (abrStepDate st line) line
  obtain ⟨hI0, hI1, hI2, hI3, hI4, hI5, hI6, hI7, hI8, hIS, hIN⟩ := abrStepIsin_spec (abrStepName (abrStepDate st line) line) line
  obtain ⟨hOT0, hOT1, hOT2, hOT3, hOT4, hOT5, hOT6, hOT7, hOT8, hOTS, hOTN⟩ := abrStepOrderType_spec (abrStepIsin (abrStepName (abrStepDate st line) line) line) line
  obtain ⟨hON0, hON1, hON2, hON3, hON4, hON5, hON6, hON7, hON8, hONS, hONN⟩ := abrStepOrderNumber_spec (abrStepOrderType (abrStepIsin (abrStepName (abrStepDate st line) line) line) line) line
  obtain ⟨hV0, hV1, hV2, hV3, hV4, hV5, hV6, hV7, hV8, hVS, hVN⟩ := abrStepVenue_spec (abrStepOrderNumber (abrStepOrderType (abrStepIsin (abrStepName (abrStepDate st line) line) line) line) line) line
  obtain ⟨hTi0, hTi1, hTi2, hTi3, hTi4, hTi5, hTi6, hTi7, hTi8, hTiS, hTiN⟩ := abrStepTime_spec (abrStepVenue (abrStepOrderNumber (abrStepOrderType (abrStepIsin (abrStepName (abrStepDate st line) line) line) line) line) line) line
  obtain ⟨hA0, hA1, hA2, hA3, hA4, hA5, hA6, hA7, hA8, hAS, hAN⟩ := abrStepAmount_spec (abrStepTime (abrStepVenue (abrStepOrderNumber (abrStepOrderType (abrStepIsin (abrStepName (abrStepDate st line) line) line) line) line) line) line) line
  obtain ⟨hP0, hP1, hP2, hP3, hP4, hP5, hP6, hP7, hP8, hPS, hPN⟩ := abrStepPrice_spec (abrStepAmount (abrStepTime (abrStepVenue (abrStepOrderNumber (abrStepOrderType (abrStepIsin (abrStepName (abrStepDate st line) line) line) line) line) line) line) line) line
  obtain ⟨hT0, hT1, hT2, hT3, hT4, hT5, hT6, hT7, hT8, hTS, hTN⟩ := abrStepTotalCost_spec (abrStepPrice (abrStepAmount (abrStepTime (abrStepVenue (abrStepOrderNumber (abrStepOrderType (abrStepIsin (abrStepName (abrStepDate st line) line) line) line) line) line) line) line) line) line
  refine ⟨?_, ?_, ?_⟩
  · show (abrStep st line).price = _
    unfold abrStep
    rw [hT8, hPS gp hp, hA7, hTi7, hV7, hON7, hOT7, hI7, hN7, hD7]
  · show (abrStep st line).totalCost = _
    unfold abrStep
    rw [hTS gt ht, hP8, hA8, hTi8, hV8, hON8, hOT8, hI8, hN8, hD8]
  · show (abrStep st line).amount = _
    unfold abrStep
    rw [hT7, hP7, hAS ga ha, hTi6, hV6, hON6, hOT6, hI6, hN6, hD6]

/-- Witness for `claim2`: the first example line appends exactly the name
and nothing else, starting from the empty accumulator. -/
theorem claim2_witness :
    (DepotState.mk [] [("Apple").data] [] [] [] []).date =
      [] ++ (depotDateG1 (("Stück Apple 10").data)).toList ∧
    (DepotState.mk [] [("Apple").data] [] [] [] []).name =
      [] ++ (depotNameG1 (("Stück Apple 10").data)).toList ∧
    (DepotState.mk [] [("Apple").data] [] [] [] []).isin =
      [] ++ (depotIsinG1 (("Stück Apple 10").data)).toList ∧
    (∃ v, (DepotState.mk [] [("Apple").data] [] [] [] []).amount =
      [] ++ ((depotAmountG1 (("Stück Apple 10").data)).map (fun _ => v)).toList) ∧
    (∃ v, (DepotState.mk [] [("Apple").data] [] [] [] []).price =
      [] ++ ((depotPriceG1 (("Stück Apple 10").data)).map (fun _ => v)).toList) ∧
    (∃ v, (DepotState.mk [] [("Apple").data] [] [] [] []).market =
      [] ++ ((depotMarketG1 (("Stück Apple 10").data)).map (fun _ => v)).toList) ∧
    depotScan [("Stück Apple 10").data, ("ISIN (WKN): US0378331005 (865985)").data] =
      some ⟨[], [("Apple").data], [("US0378331005").data], [], [], []⟩ :=
  claim2 ⟨[], [], [], [], [], []⟩ ⟨[], [("Apple").data], [], [], [], []⟩
    (("Stück Apple 10").data) (by decide)

/-- C3 counterexample: on the line `Kurs (Festpreisgeschäft) EUR 1.234,56`
the trade-confirmation extractor stores the price cell as the *string*
`1234.56` (only the two replaces of line 155 are applied); the stored cell
is not the number that the account-statement normalization (`float` after
the replaces, line 38) yields, so the claim's "and the result parsed as a
signed decimal number" is false on the code. -/
theorem claim3_counterexample :
    (abrScan [("Kurs (Festpreisgeschäft) EUR 1.234,56").data]).price =
      [PyVal.str (("1234.56").data)] ∧
    (abrScan [("Kurs (Festpreisgeschäft) EUR 1.234,56").data]).price ≠
      [PyVal.num ((pyFloatOpt (germanNorm (("1.234,56").data))).getD 0)] := by
  refine ⟨by decide, ?_⟩
  intro h
  rw [show (pyFloatOpt (germanNorm (("1.234,56").data))).getD 0 =
    Rat.divInt 123456 100 from by decide] at h
  exact absurd h (by decide)

/-- Witness for `claim3_amended` on a line carrying all three labels. -/
theorem claim3_amended_witness :
    (abrStep ⟨[], [], [], [], [], [], [], [], [], []⟩
      (("Kurs (Festpreisgeschäft) EUR 1,00 Endbetrag zu Ihren Lasten EUR 2,00 Nominale Stück 3").data)).price =
      [] ++ [PyVal.str (germanNorm (("1,00 Endbetrag zu Ihren Lasten EUR 2,00 Nominale Stück 3").data))] ∧
    (abrStep ⟨[], [], [], [], [], [], [], [], [], []⟩
      (("Kurs (Festpreisgeschäft) EUR 1,00 Endbetrag zu Ihren Lasten EUR 2,00 Nominale Stück 3").data)).totalCost =
      [] ++ [PyVal.str (germanNorm (("2,00 Nominale Stück 3").data))] ∧
    (abrStep ⟨[], [], [], [], [], [], [], [], [], []⟩
      (("Kurs (Festpreisgeschäft) EUR 1,00 Endbetrag zu Ihren Lasten EUR 2,00 Nominale Stück 3").data)).amount =
      [] ++ [PyVal.str (("3").data)] :=
  claim3_amended ⟨[], [], [], [], [], [], [], [], [], []⟩
    (("Kurs (Festpreisgeschäft) EUR 1,00 Endbetrag zu Ihren Lasten EUR 2,00 Nominale Stück 3").data)
    (("1,00 Endbetrag zu Ihren Lasten EUR 2,00 Nominale Stück 3").data)
    (("2,00 Nominale Stück 3").data) (("3").data)
    (by decide) (by decide) (by decide)

/-- C4 (evaluation of the routing bug): the router invokes each extractor
iff the lowered filename contains its keyword, but the not-recognized
diagnostic is attached as the `else` of the `'abrechnung'` test alone
(lines 204–207), so it is printed for every filename without
`abrechnung` — including `Kontoauszug_2024.pdf`, whose keyword is
recognized and whose extractor runs.  A filename with none of the
keywords gets the diagnostic and no extractor, as the claim says. -/
theorem claim4_bug :
    (route (("Kontoauszug_2024.pdf").data)).konto = true ∧
    (route (("Kontoauszug_2024.pdf").data)).diag = true ∧
    (runMain (.file ⟨("Kontoauszug_2024.pdf").data, []⟩) (("giro").data)).notRecognized =
      true ∧
    (route (("statement.pdf").data)).konto = false ∧
    (route (("statement.pdf").data)).depot = false ∧
    (route (("statement.pdf").data)).abrech = false ∧
    (route (("statement.pdf").data)).diag = true := by
  refine ⟨by decide, by decide, by decide, by decide, by decide, by decide, by decide⟩

/-- C5 (evaluation of the empty-result crash): only the path through a
recognized extractor with an empty DataFrame reports and writes nothing;
a single `.pdf` file with an unrecognized layout leaves `df` as the
initial Python list, so `df.empty` (line 219) raises `AttributeError`,
and a directory where no file matches leaves the list empty, so
`pd.concat([])` (line 214) raises `ValueError` — both terminate with an
uncaught exception instead of the informational message. -/
theorem claim5_bug :
    runMain (.file ⟨("statement.pdf").data, [("01.01.2023 A 1,00").data]⟩) (("giro").data) =
      ⟨.crashAttr, true⟩ ∧
    runMain (.dir [⟨("report.pdf").data, [("01.01.2023 A 1,00").data]⟩]) (("giro").data) =
      ⟨.crashConcat, false⟩ ∧
    runMain (.file ⟨("Kontoauszug_Giro.pdf").data, [("no transactions").data]⟩)
      (("giro").data) = ⟨.info, true⟩ := by
  refine ⟨by decide, by decide, by decide⟩

theorem chain'_sortRowsDesc (l : List GRow) :
    List.Chain' (fun a b => dateKey b.date ≤ dateKey a.date) (sortRowsDesc l) :=
  (List.sorted_insertionSort _ l).chain'

/-- C8: whenever directory mode writes an output file, the merged table is
sorted by date in descending order: every row's date key is at least the
next row's date key. -/
theorem claim8 (files : List FileInput) (account : List Char) (rows : List GRow)
    (diag : Bool) (h : runMain (.dir files) account = ⟨.wrote rows, diag⟩) :
    List.Chain' (fun a b => dateKey b.date ≤ dateKey a.date) rows := by
  have h2 : runDir files account = ⟨.wrote rows, diag⟩ := h
  unfold runDir at h2
  dsimp only at h2
  split at h2
  · cases h2
  · split at h2
    · simp at h2
    · unfold finishDF at h2
      split at h2
      · simp at h2
      · simp only [MainRes.mk.injEq, MainOut.wrote.injEq] at h2
        obtain ⟨h1, -⟩ := h2
        rw [← h1]
        exact chain'_sortRowsDesc _

/-- Witness for `claim8`: two one-transaction statements merge into a
table sorted by date descending. -/
theorem claim8_witness :
    List.Chain' (fun (a b : GRow) => dateKey b.date ≤ dateKey a.date)
      ([⟨("02.01.2023").data, [PyVal.str (("B").data), PyVal.num (Rat.divInt 200 100)]⟩,
        ⟨("01.01.2023").data, [PyVal.str (("A").data), PyVal.num (Rat.divInt 100 100)]⟩] :
        List GRow) :=
  claim8 [⟨("kontoauszug_giro_a.pdf").data, [("01.01.2023 A 1,00").data]⟩,
      ⟨("kontoauszug_giro_b.pdf").data, [("02.01.2023 B 2,00").data]⟩] (("giro").data)
    [⟨("02.01.2023").data, [PyVal.str (("B").data), PyVal.num (Rat.divInt 200 100)]⟩,
      ⟨("01.01.2023").data, [PyVal.str (("A").data), PyVal.num (Rat.divInt 100 100)]⟩]
    false (by decide)
